import Mathlib

/-!
Verification development for the Luna narrative-game turn orchestration core.

The Python sources under `luna/` are shallowly embedded as executable Lean
definitions: dictionaries become association lists (which preserve insertion
order, as Python dicts do), in-place mutation becomes explicit state passing,
`async` functions that perform external calls take the outcome of those calls
as an explicit argument (`Option`/`Except`), and exceptions become `Except` or
early returns.  Machine integers are `Int` (Python ints are unbounded, so no
modular arithmetic is needed); Python float scores are modelled as `ℚ`
(the scores in scope are exact small fractions).

The data-container module `luna/core/models.py` is not present in the source
tree; the container types it declares (`GameState`, `QuestStatus`,
`StoryBeat`, `LLMResponse`, ...) are modelled from the specification's data
model, as noted on each such definition.  All behaviour is translated from
the Python files that are present.
-/

namespace Luna

/-- A Python-style dynamic value, as stored in flag maps and condition
values.  Only the constructors actually used by the embedded code appear. -/
inductive PyVal where
  | vBool (b : Bool)
  | vInt (n : Int)
  | vStr (s : String)
  | vList (xs : List PyVal)

mutual

/-- Decidable equality for `PyVal` (the nested list forces a manual
definition). -/
def PyVal.decEq : (a b : PyVal) → Decidable (a = b)
  | .vBool a, .vBool b =>
      if h : a = b then .isTrue (by rw [h]) else .isFalse (by simp [h])
  | .vInt a, .vInt b =>
      if h : a = b then .isTrue (by rw [h]) else .isFalse (by simp [h])
  | .vStr a, .vStr b =>
      if h : a = b then .isTrue (by rw [h]) else .isFalse (by simp [h])
  | .vList xs, .vList ys =>
      match PyVal.decEqList xs ys with
      | .isTrue h => .isTrue (by rw [h])
      | .isFalse h => .isFalse (by simp [h])
  | .vBool _, .vInt _ => .isFalse nofun
  | .vBool _, .vStr _ => .isFalse nofun
  | .vBool _, .vList _ => .isFalse nofun
  | .vInt _, .vBool _ => .isFalse nofun
  | .vInt _, .vStr _ => .isFalse nofun
  | .vInt _, .vList _ => .isFalse nofun
  | .vStr _, .vBool _ => .isFalse nofun
  | .vStr _, .vInt _ => .isFalse nofun
  | .vStr _, .vList _ => .isFalse nofun
  | .vList _, .vBool _ => .isFalse nofun
  | .vList _, .vInt _ => .isFalse nofun
  | .vList _, .vStr _ => .isFalse nofun

/-- Decidable equality for lists of `PyVal`. -/
def PyVal.decEqList : (xs ys : List PyVal) → Decidable (xs = ys)
  | [], [] => .isTrue rfl
  | x :: xs, y :: ys =>
      match PyVal.decEq x y, PyVal.decEqList xs ys with
      | .isTrue h1, .isTrue h2 => .isTrue (by rw [h1, h2])
      | .isFalse h1, _ => .isFalse (by simp [h1])
      | .isTrue _, .isFalse h2 => .isFalse (by simp [h2])
  | [], _ :: _ => .isFalse nofun
  | _ :: _, [] => .isFalse nofun

end

instance : DecidableEq PyVal := PyVal.decEq

mutual

/-- Python `repr()` of a value (list elements render with `repr`). -/
def PyVal.pyRepr : PyVal → String
  | .vBool true => "True"
  | .vBool false => "False"
  | .vInt n => toString n
  | .vStr s => "'" ++ s ++ "'"
  | .vList xs => "[" ++ String.intercalate ", " (PyVal.pyReprList xs) ++ "]"

/-- `repr()` of each element of a list. -/
def PyVal.pyReprList : List PyVal → List String
  | [] => []
  | x :: xs => PyVal.pyRepr x :: PyVal.pyReprList xs

end

namespace PyVal

/-- Python `str()` of a value, to the extent the embedded comparisons need
it (`_compare` falls back to string comparison; flag comparison uses
`str(actual) == str(expected)`). -/
def pyStr : PyVal → String
  | vBool true => "True"
  | vBool false => "False"
  | vInt n => toString n
  | vStr s => s
  | vList xs => "[" ++ String.intercalate ", " (PyVal.pyReprList xs) ++ "]"

/-- Python truthiness of a value (`bool(x)`). -/
def truthy : PyVal → Bool
  | vBool b => b
  | vInt n => !(n == 0)
  | vStr s => !(s == "")
  | vList xs => !xs.isEmpty

end PyVal

/-! ### Character-level string primitives

Python's `str.lower`, `str.strip`, `str.startswith` and lexicographic
string comparison, implemented over the character list so that every
definition evaluates by kernel reduction.  (`Char.toLower` lowers ASCII
letters; the accented Italian letters in scope are already lowercase in
the content.) -/

/-- Python `s.lower()`. -/
def strLower (s : String) : String := ⟨s.data.map Char.toLower⟩

/-- Python `s.strip()`: drop whitespace from both ends. -/
def strStrip (s : String) : String :=
  ⟨((s.data.dropWhile Char.isWhitespace).reverse.dropWhile
      Char.isWhitespace).reverse⟩

/-- Python `s.startswith(pre)`. -/
def strStartsWith (s pre : String) : Bool :=
  pre.data.isPrefixOf s.data

/-- Lexicographic comparison of character lists by code point. -/
def charsLt : List Char → List Char → Bool
  | [], [] => false
  | [], _ :: _ => true
  | _ :: _, [] => false
  | a :: as, b :: bs =>
      if a < b then true else if b < a then false else charsLt as bs

/-- Python `a < b` on strings (lexicographic by code point). -/
def strLt (a b : String) : Bool := charsLt a.data b.data

/-! ### Association lists standing in for Python dicts

Python dict semantics: lookup by key; assignment updates the value in place
if the key exists (keeping its position) and appends otherwise; iteration
follows insertion order. -/

/-- Dict lookup (`d.get(k)`). -/
def alistGet {α : Type} (l : List (String × α)) (k : String) : Option α :=
  (l.find? (fun p => p.1 = k)).map Prod.snd

/-- Dict lookup with default (`d.get(k, dflt)`). -/
def alistGetD {α : Type} (l : List (String × α)) (k : String) (dflt : α) : α :=
  (alistGet l k).getD dflt

/-- Dict membership (`k in d`). -/
def alistMem {α : Type} (l : List (String × α)) (k : String) : Bool :=
  l.any (fun p => p.1 = k)

/-- Dict assignment (`d[k] = v`): replace in place if present, else append. -/
def alistSet {α : Type} : List (String × α) → String → α → List (String × α)
  | [], k, v => [(k, v)]
  | p :: rest, k, v =>
      if p.1 = k then (k, v) :: rest else p :: alistSet rest k v

/-- Natural-number-keyed dict, used for the memory-search score table. -/
def nlistGet {α : Type} (l : List (Nat × α)) (k : Nat) : Option α :=
  (l.find? (fun p => p.1 = k)).map Prod.snd

/-- Membership for a natural-number-keyed dict. -/
def nlistMem {α : Type} (l : List (Nat × α)) (k : Nat) : Bool :=
  l.any (fun p => p.1 = k)

/-- Assignment for a natural-number-keyed dict. -/
def nlistSet {α : Type} : List (Nat × α) → Nat → α → List (Nat × α)
  | [], k, v => [(k, v)]
  | p :: rest, k, v =>
      if p.1 = k then (k, v) :: rest else p :: nlistSet rest k v

/-! ### Game state (`luna/core/models.py`, `luna/core/state.py`) -/

/-- Runtime status of a quest instance.  Modelled from the spec: the
`QuestStatus` enum lives in the absent `luna/core/models.py`; usage in
`quests.py`/`state.py` shows the three stored variants `ACTIVE`,
`COMPLETED`, `FAILED` ("not-started" is the absence of an instance). -/
inductive QuestStatus where
  | active
  | completed
  | failed
deriving DecidableEq

/-- The mutable per-session world state.  Modelled from the spec:
`GameState` is declared in the absent `luna/core/models.py`; the fields
follow the spec's WorldState row and the accesses made by the present
code.  The spec's data model declares a single `flags(map)`; the code
reads it both as `flags` (`state.py`) and as `quest_flags`
(`quests.py`, `story_director.py`), so both names denote this one map. -/
structure GameState where
  turn_count : Int := 0
  time_of_day : String := "morning"
  current_location : String := "start"
  active_companion : String := ""
  companion_outfit : String := "default"
  affinity : List (String × Int) := []
  flags : List (String × PyVal) := []
  active_quests : List String := []
  completed_quests : List String := []
  inventory : List String := []
  npc_emotions : List (String × String) := []
deriving DecidableEq

/-- `quest_flags` is the same map as `flags` (see `GameState`). -/
def GameState.quest_flags (s : GameState) : List (String × PyVal) := s.flags

namespace StateManager

/-- `StateManager.advance_turn`: increment the turn counter. -/
def advance_turn (s : GameState) : GameState :=
  { s with turn_count := s.turn_count + 1 }

/-- `StateManager.set_time`. -/
def set_time (t : String) (s : GameState) : GameState :=
  { s with time_of_day := t }

/-- `StateManager.set_location`. -/
def set_location (loc : String) (s : GameState) : GameState :=
  { s with current_location := loc }

/-- `StateManager.set_outfit_style` (also the target of
`StateManager.set_outfit`): store the style in the legacy
`companion_outfit` field; the description regenerates later. -/
def set_outfit_style (style : String) (s : GameState) : GameState :=
  { s with companion_outfit := style }

/-- `StateManager.change_affinity`: read the current value (default 0),
add the delta, clamp to `[0, 100]` when `clamp` is set (its Python
default), and store the result. -/
def change_affinity (companion : String) (delta : Int) (s : GameState)
    (clamp : Bool := true) : GameState :=
  let current := alistGetD s.affinity companion 0
  let new_value := current + delta
  let new_value := if clamp then max 0 (min 100 new_value) else new_value
  { s with affinity := alistSet s.affinity companion new_value }

/-- `StateManager.set_flag`. -/
def set_flag (key : String) (value : PyVal) (s : GameState) : GameState :=
  { s with flags := alistSet s.flags key value }

/-- `StateManager.update_npc_emotion` (the `ensure_npc_state` step only
creates a record; the observable effect is the stored emotion). -/
def update_npc_emotion (name emotion : String) (s : GameState) : GameState :=
  { s with npc_emotions := alistSet s.npc_emotions name emotion }

/-- `StateManager.start_quest`: refuse ids already active or already
completed, otherwise append to the active list. -/
def start_quest (quest_id : String) (s : GameState) : Bool × GameState :=
  if quest_id ∈ s.active_quests then (false, s)
  else if quest_id ∈ s.completed_quests then (false, s)
  else (true, { s with active_quests := s.active_quests ++ [quest_id] })

/-- `StateManager.complete_quest`: only an active quest moves to the
completed list. -/
def complete_quest (quest_id : String) (s : GameState) : Bool × GameState :=
  if quest_id ∉ s.active_quests then (false, s)
  else (true, { s with
      active_quests := s.active_quests.erase quest_id,
      completed_quests := s.completed_quests ++ [quest_id] })

/-- `StateManager.fail_quest`: an active quest is removed from the active
list; nothing records the failure on the `GameState`. -/
def fail_quest (quest_id : String) (s : GameState) : Bool × GameState :=
  if quest_id ∉ s.active_quests then (false, s)
  else (true, { s with active_quests := s.active_quests.erase quest_id })

end StateManager

/-! ### Quest engine (`luna/systems/quests.py`) -/

/-- Containment of one character list in another. -/
def listContains (needle : List Char) : List Char → Bool
  | [] => needle.isEmpty
  | c :: rest => needle.isPrefixOf (c :: rest) || listContains needle rest

/-- Case-insensitive unanchored pattern search over a string, modelling
`re.search(pattern, text, re.IGNORECASE)` for the literal patterns the
content uses (substring containment; regex metacharacters are out of the
verified scope). -/
def substrCI (needle haystack : String) : Bool :=
  listContains (strLower needle).toList (strLower haystack).toList

/-- Python `x or y` for an optional string: `None` and `""` are falsy. -/
def pyOrStr (x : Option String) (y : String) : String :=
  match x with
  | some s => if s == "" then y else s
  | none => y

/-- `ConditionType` enumeration. -/
inductive ConditionType where
  | affinity
  | location
  | time
  | flag
  | turnCount
  | inventory
  | action
  | companion
  | questStatus
deriving DecidableEq

/-- `ActionType` enumeration. -/
inductive ActionType where
  | setFlag
  | addFlag
  | changeAffinity
  | setLocation
  | setOutfit
  | setEmotionalState
  | startQuest
  | completeQuest
  | failQuest
deriving DecidableEq

/-- A declarative quest condition.  Modelled from the spec: the container
is declared in the absent `luna/core/models.py`; fields follow the
accesses in `quests.py` (`type`, `target`, `operator`, `value`,
`pattern`). -/
structure QuestCondition where
  ctype : ConditionType
  target : Option String := none
  operator : String := "eq"
  value : PyVal := PyVal.vBool true
  pattern : Option String := none
deriving DecidableEq

/-- A quest action.  Modelled from the spec: container from the absent
`luna/core/models.py`, fields from the accesses in `quests.py`. -/
structure QuestAction where
  action : ActionType
  key : String := ""
  value : PyVal := PyVal.vBool true
  character : Option String := none
  target : Option String := none
  outfit : Option String := none
  quest_id : Option String := none
deriving DecidableEq

/-- A labeled stage transition.  Modelled from the spec (absent
`luna/core/models.py`): `condition` is either `condition_{i}` or
`default`, `target_stage` names the destination stage. -/
structure QuestTransition where
  condition : String
  target_stage : String
deriving DecidableEq

/-- A quest stage.  Modelled from the spec (absent `luna/core/models.py`):
ordered exit conditions, labeled transitions, entry actions and a
narrative prompt. -/
structure QuestStage where
  exit_conditions : List QuestCondition := []
  transitions : List QuestTransition := []
  on_enter : List QuestAction := []
  narrative_prompt : String := ""
deriving DecidableEq

/-- Quest rewards.  Modelled from the spec (absent `luna/core/models.py`):
per-companion affinity deltas, flags to set, and follow-on quests. -/
structure QuestRewards where
  affinity : List (String × Int) := []
  flags : List (String × PyVal) := []
  unlock_quests : List String := []
deriving DecidableEq

/-- A quest definition.  Modelled from the spec (absent
`luna/core/models.py`); fields follow the accesses in `quests.py`. -/
structure QuestDefinition where
  title : String := ""
  activation_type : String := "auto"
  activation_conditions : List QuestCondition := []
  trigger_event : Option String := none
  required_quests : List String := []
  start_stage : String := ""
  stages : List (String × QuestStage) := []
  hidden : Bool := false
  rewards : QuestRewards := {}
deriving DecidableEq

/-- Runtime progress of one quest.  Modelled from the spec (absent
`luna/core/models.py`): id, status, current stage, start/completion
turns. -/
structure QuestInstance where
  quest_id : String
  status : QuestStatus
  current_stage_id : String
  started_at : Int := 0
  completed_at : Option Int := none
deriving DecidableEq

/-- `ConditionContext`: the evaluation context built from the game state,
the player input and the turn counter. -/
structure ConditionContext where
  game_state : GameState
  user_input : String := ""
  turn_count : Int := 0

/-- A numeric view of a value, mirroring `isinstance(x, (int, float))`
(Python `bool` is a subclass of `int`). -/
def PyVal.toNum : PyVal → Option Int
  | .vInt n => some n
  | .vBool b => some (if b then 1 else 0)
  | _ => none

/-- `ConditionEvaluator._compare`: numeric comparison when both sides are
numeric and the operator is one of `eq/gt/lt/gte/lte`; otherwise fall
through to lowercased string comparison (`eq/contains/gt/lt`); anything
else is `False`. -/
def pyCompare (actual : PyVal) (operator : String) (expected : PyVal) : Bool :=
  let numRes : Option Bool :=
    match actual.toNum, expected.toNum with
    | some a, some b =>
        if operator == "eq" then some (a == b)
        else if operator == "gt" then some (decide (a > b))
        else if operator == "lt" then some (decide (a < b))
        else if operator == "gte" then some (decide (a ≥ b))
        else if operator == "lte" then some (decide (a ≤ b))
        else none
    | _, _ => none
  match numRes with
  | some r => r
  | none =>
      let actual_str := strLower actual.pyStr
      let expected_str := strLower expected.pyStr
      if operator == "eq" then actual_str == expected_str
      else if operator == "contains" then substrCI expected_str actual_str
      else if operator == "gt" then strLt expected_str actual_str
      else if operator == "lt" then strLt actual_str expected_str
      else false

/-- Python `x == y` where `x` is a `bool` (used by the inventory branch):
`True == 1` holds in Python. -/
def pyEqBool (b : Bool) (v : PyVal) : Bool :=
  match v.toNum with
  | some n => (if b then (1 : Int) else 0) == n
  | none => false

/-- `ConditionEvaluator.evaluate`: dispatch on the condition type, read
the actual value from the context, and compare.  The `flag` and
`inventory` branches return directly; `action` searches the pattern in
the player input; `quest_status` is handled by the engine and evaluates
as `True`. -/
def ConditionEvaluator.evaluate (condition : QuestCondition)
    (context : ConditionContext) : Bool :=
  let gs := context.game_state
  match condition.ctype with
  | .affinity =>
      let target := pyOrStr condition.target gs.active_companion
      pyCompare (.vInt (alistGetD gs.affinity target 0)) condition.operator
        condition.value
  | .location => pyCompare (.vStr gs.current_location) condition.operator condition.value
  | .time => pyCompare (.vStr gs.time_of_day) condition.operator condition.value
  | .flag =>
      let flag_name := condition.target.getD ""
      let actual := alistGetD gs.quest_flags flag_name (.vBool false)
      match actual with
      | .vBool b =>
          let compare_value :=
            match condition.value with
            | .vBool c => c
            | v => strLower v.pyStr == "true"
          b == compare_value
      | v => v.pyStr == condition.value.pyStr
  | .turnCount => pyCompare (.vInt context.turn_count) condition.operator condition.value
  | .inventory =>
      let present :=
        match condition.target with
        | some t => gs.inventory.contains t
        | none => false
      pyEqBool present condition.value
  | .action =>
      match condition.pattern with
      | some p => substrCI p context.user_input
      | none => false
  | .companion => pyCompare (.vStr gs.active_companion) condition.operator condition.value
  | .questStatus => true

/-- `ActionExecutor.execute`: apply one action to the game state,
returning whether it succeeded.  A `change_affinity` with a non-numeric
value would raise inside the `try` and is reported as a failure with the
state unchanged; every other modelled branch returns `True`. -/
def ActionExecutor.execute (a : QuestAction) (game_state : GameState) :
    Bool × GameState :=
  match a.action with
  | .setFlag => (true, StateManager.set_flag a.key a.value game_state)
  | .addFlag =>
      let current := alistGetD game_state.quest_flags a.key (.vList [])
      match current with
      | .vList xs =>
          (true, StateManager.set_flag a.key (.vList (xs ++ [a.value])) game_state)
      | _ => (true, game_state)
  | .changeAffinity =>
      let ch := pyOrStr a.character game_state.active_companion
      if ch == "" then (true, game_state)
      else
        match a.value.toNum with
        | some n => (true, StateManager.change_affinity ch n game_state)
        | none => (false, game_state)
  | .setLocation =>
      match a.target with
      | some t => if t == "" then (true, game_state)
          else (true, StateManager.set_location t game_state)
      | none => (true, game_state)
  | .setOutfit =>
      match a.outfit with
      | some o => if o == "" then (true, game_state)
          else (true, StateManager.set_outfit_style o game_state)
      | none => (true, game_state)
  | .setEmotionalState =>
      let ch := pyOrStr a.character game_state.active_companion
      if ch == "" || !a.value.truthy then (true, game_state)
      else (true, StateManager.update_npc_emotion ch a.value.pyStr game_state)
  | .startQuest =>
      match a.quest_id with
      | some q => if q == "" then (true, game_state)
          else (true, (StateManager.start_quest q game_state).2)
      | none => (true, game_state)
  | .completeQuest =>
      match a.quest_id with
      | some q => if q == "" then (true, game_state)
          else (true, (StateManager.complete_quest q game_state).2)
      | none => (true, game_state)
  | .failQuest =>
      match a.quest_id with
      | some q => if q == "" then (true, game_state)
          else (true, (StateManager.fail_quest q game_state).2)
      | none => (true, game_state)

/-- Run a batch of actions best-effort (each failing action is skipped
without aborting the rest), collecting the actions that succeeded. -/
def execActions (actions : List QuestAction) (gs : GameState) :
    List QuestAction × GameState :=
  actions.foldl
    (fun acc a =>
      let r := ActionExecutor.execute a acc.2
      (if r.1 then acc.1 ++ [a] else acc.1, r.2))
    ([], gs)

/-- `QuestActivationResult`. -/
structure QuestActivationResult where
  quest_id : String
  title : String
  actions_executed : List QuestAction := []
  narrative_context : String := ""
  hidden : Bool := false
deriving DecidableEq

/-- `QuestUpdateResult`. -/
structure QuestUpdateResult where
  quest_id : String
  stage_changed : Bool := false
  old_stage : Option String := none
  new_stage : Option String := none
  actions_executed : List QuestAction := []
  quest_completed : Bool := false
  quest_failed : Bool := false
  narrative_context : String := ""
deriving DecidableEq

namespace QuestEngine

/-- The quest engine's runtime state: `active_states`, a dict from quest
id to instance. -/
abbrev States := List (String × QuestInstance)

/-- `QuestEngine._evaluate_conditions`: all conditions must hold (an
empty list holds vacuously). -/
def evaluate_conditions (conditions : List QuestCondition)
    (context : ConditionContext) : Bool :=
  conditions.all (fun c => ConditionEvaluator.evaluate c context)

/-- `QuestEngine.check_activations`: walk the quest definitions in
declaration order; skip ids whose instance is `ACTIVE` or `COMPLETED`
(a `FAILED` instance is *not* skipped); `auto` quests activate when all
activation conditions hold, `trigger` quests when the
`trigger_{event}` flag is truthy. -/
def check_activations (definitions : List (String × QuestDefinition))
    (states : States) (game_state : GameState) : List String :=
  let context : ConditionContext :=
    { game_state := game_state, turn_count := game_state.turn_count }
  definitions.foldl
    (fun activated p =>
      let (quest_id, quest) := p
      let skip :=
        match alistGet states quest_id with
        | some st =>
            decide (st.status = QuestStatus.active) ||
              decide (st.status = QuestStatus.completed)
        | none => false
      if skip then activated
      else if quest.activation_type == "auto" then
        if evaluate_conditions quest.activation_conditions context then
          activated ++ [quest_id]
        else activated
      else if quest.activation_type == "trigger" then
        match quest.trigger_event with
        | some ev =>
            if (alistGetD game_state.quest_flags ("trigger_" ++ ev)
                (.vBool false)).truthy
            then activated ++ [quest_id] else activated
        | none => activated
      else activated)
    []

/-- `QuestEngine._rewards_to_actions`: affinity deltas, flag sets and
quest unlocks, in that order. -/
def rewards_to_actions (rewards : QuestRewards) : List QuestAction :=
  (rewards.affinity.map (fun p =>
      ({ action := .changeAffinity, character := some p.1,
         value := .vInt p.2 } : QuestAction)))
  ++ (rewards.flags.map (fun p =>
      ({ action := .setFlag, key := p.1, value := p.2 } : QuestAction)))
  ++ (rewards.unlock_quests.map (fun q =>
      ({ action := .startQuest, quest_id := some q } : QuestAction)))

/-- `QuestEngine.activate_quest`: require every prerequisite quest to be
`COMPLETED`; fall back to the first declared stage when `start_stage`
is missing; create an `ACTIVE` instance and run the start stage's
`on_enter` actions. -/
def activate_quest (definitions : List (String × QuestDefinition))
    (quest_id : String) (states : States) (game_state : GameState) :
    Option QuestActivationResult × States × GameState :=
  match alistGet definitions quest_id with
  | none => (none, states, game_state)
  | some quest =>
      if quest.required_quests.all (fun req =>
          match alistGet states req with
          | some st => st.status = QuestStatus.completed
          | none => false)
      then
        let start_stage_id :=
          if alistMem quest.stages quest.start_stage then quest.start_stage
          else match quest.stages with
            | [] => ""
            | p :: _ => p.1
        let inst : QuestInstance :=
          { quest_id := quest_id, status := .active,
            current_stage_id := start_stage_id,
            started_at := game_state.turn_count }
        let states := alistSet states quest_id inst
        match alistGet quest.stages start_stage_id with
        | some start_stage =>
            let (actions_executed, gs) := execActions start_stage.on_enter game_state
            (some { quest_id := quest_id, title := quest.title,
                    actions_executed := actions_executed,
                    narrative_context := start_stage.narrative_prompt,
                    hidden := quest.hidden }, states, gs)
        | none =>
            (some { quest_id := quest_id, title := quest.title,
                    narrative_context := "", hidden := quest.hidden },
             states, game_state)
      else (none, states, game_state)

/-- The `for i, condition in enumerate(...)` loop of
`QuestEngine.process_turn`: index of the first satisfied exit
condition. -/
def firstSatisfiedAux (context : ConditionContext) (i : Nat) :
    List QuestCondition → Option Nat
  | [] => none
  | c :: cs =>
      if ConditionEvaluator.evaluate c context then some i
      else firstSatisfiedAux context (i + 1) cs

/-- Index of the first satisfied exit condition (or none). -/
def firstSatisfied (context : ConditionContext)
    (conds : List QuestCondition) : Option Nat :=
  firstSatisfiedAux context 0 conds

/-- The transition-search loop of `QuestEngine.process_turn`: the first
transition labeled `condition_{i}` for the triggered index, or the first
`default` transition when no condition triggered. -/
def findTransition (triggered_idx : Option Nat) :
    List QuestTransition → Option String
  | [] => none
  | t :: ts =>
      if (match triggered_idx with
          | some i => t.condition == "condition_" ++ toString i
          | none => false) then
        some t.target_stage
      else if t.condition == "default" && triggered_idx.isNone then
        some t.target_stage
      else findTransition triggered_idx ts

/-- `QuestEngine._transition_stage`: `_complete` marks the instance
completed and runs the rewards; `_fail` marks it failed; a normal target
must exist (otherwise an empty result with no mutation) and runs its
`on_enter` actions.  `director_set` mirrors whether
`set_story_director` was called (the present engine never calls it). -/
def transition_stage (quest : QuestDefinition) (quest_id : String)
    (inst : QuestInstance) (to_stage_id : String)
    (states : States) (game_state : GameState) (director_set : Bool) :
    QuestUpdateResult × States × GameState :=
  let old_stage_id := inst.current_stage_id
  if to_stage_id == "_complete" then
    let inst := { inst with status := QuestStatus.completed,
                            completed_at := some game_state.turn_count }
    let states := alistSet states quest_id inst
    let (actions_executed, gs) :=
      execActions (rewards_to_actions quest.rewards) game_state
    let gs := if director_set then
        StateManager.set_flag ("event_quest_" ++ quest_id ++ "_completed")
          (.vBool true) gs
      else gs
    ({ quest_id := quest_id, stage_changed := true,
       old_stage := some old_stage_id, new_stage := some to_stage_id,
       actions_executed := actions_executed, quest_completed := true },
     states, gs)
  else if to_stage_id == "_fail" then
    let inst := { inst with status := QuestStatus.failed }
    let states := alistSet states quest_id inst
    ({ quest_id := quest_id, stage_changed := true,
       old_stage := some old_stage_id, new_stage := some to_stage_id,
       quest_failed := true }, states, game_state)
  else
    match alistGet quest.stages to_stage_id with
    | none => ({ quest_id := quest_id }, states, game_state)
    | some to_stage =>
        let inst := { inst with current_stage_id := to_stage_id }
        let states := alistSet states quest_id inst
        let (actions_executed, gs) := execActions to_stage.on_enter game_state
        let gs := if director_set then
            StateManager.set_flag
              ("event_quest_" ++ quest_id ++ "_stage_" ++ to_stage_id)
              (.vBool true) gs
          else gs
        ({ quest_id := quest_id, stage_changed := true,
           old_stage := some old_stage_id, new_stage := some to_stage_id,
           actions_executed := actions_executed,
           narrative_context := to_stage.narrative_prompt },
         states, gs)

/-- `QuestEngine.process_turn`: for an `ACTIVE` instance whose current
stage exists, evaluate the exit conditions in declaration order, find
the matching transition, and transition; any missing piece (or a falsy
target id) returns `none` with no mutation. -/
def process_turn (definitions : List (String × QuestDefinition))
    (quest_id : String) (states : States) (game_state : GameState)
    (user_input : String) (director_set : Bool := false) :
    Option QuestUpdateResult × States × GameState :=
  match alistGet states quest_id with
  | none => (none, states, game_state)
  | some inst =>
      if inst.status ≠ QuestStatus.active then (none, states, game_state)
      else
        match alistGet definitions quest_id with
        | none => (none, states, game_state)
        | some quest =>
            match alistGet quest.stages inst.current_stage_id with
            | none => (none, states, game_state)
            | some current_stage =>
                let context : ConditionContext :=
                  { game_state := game_state, user_input := user_input,
                    turn_count := game_state.turn_count }
                let triggered_idx :=
                  firstSatisfied context current_stage.exit_conditions
                let target_stage_id :=
                  findTransition triggered_idx current_stage.transitions
                match target_stage_id with
                | none => (none, states, game_state)
                | some tid =>
                    if tid == "" then (none, states, game_state)
                    else
                      let (r, states, gs) :=
                        transition_stage quest quest_id inst tid states
                          game_state director_set
                      (some r, states, gs)

/-- `QuestEngine.get_active_quests`: ids of `ACTIVE` instances in
insertion order. -/
def get_active_quests (states : States) : List String :=
  (states.filter (fun p => p.2.status = QuestStatus.active)).map Prod.fst

end QuestEngine

/-! ### Story director (`luna/core/story_director.py`) -/

/-- Plain (case-sensitive) substring containment, modelling Python's
`needle in haystack` on strings. -/
def substrStr (needle haystack : String) : Bool :=
  listContains needle.toList haystack.toList

/-- One effective clause of a beat's consequence string.  The source
parses a comma-separated mini-grammar: a part containing `affinity`
matched against `([\w]+)\s*([\+\-])=\s*(\d+)` yields a signed
per-companion delta; a part containing `flag:` matched against
`flag:(\w+)\s*=\s*(\w+)` yields a boolean flag set; non-matching parts
are skipped.  The embedding works on this parsed form. -/
inductive BeatConsequence where
  | affinityChange (ch : String) (amount : Int)
  | flagSet (name : String) (value : Bool)
deriving DecidableEq

/-- An authored narrative beat.  Modelled from the spec: the container is
declared in the absent `luna/core/models.py`.  The `trigger` expression
string is evaluated by `eval` against a context derived from the game
state; it is embedded as a boolean function of the state (an expression
whose evaluation raises behaves as the constantly-false function). -/
structure StoryBeat where
  id : String
  trigger : GameState → Bool
  priority : Int := 0
  required_elements : List String := []
  once : Bool := true
  description : String := ""
  consequence : List BeatConsequence := []

/-- A beat completion record.  Modelled from the spec (absent
`luna/core/models.py`); fields from `mark_beat_completed`. -/
structure BeatExecution where
  beat_id : String
  triggered_at : Int := 0
  completed : Bool := true
  execution_quality : ℚ := 1
  narrative_snapshot : String := ""

/-- The parsed verdict of the semantic judge call.  `validate_beat_execution`
reads `data.get("success", False)` and `float(data.get("quality", base))`
from the judge's JSON, so both fields may be absent. -/
structure JudgeVerdict where
  success : Option Bool := none
  quality : Option ℚ := none

namespace StoryDirector

/-- The director's mutable state: completed-beat record and execution
history. -/
structure DirectorState where
  beat_history : List BeatExecution := []
  beat_completed : List String := []

/-- The candidate filter of `get_active_instruction`: skip `once` beats
already completed, keep beats whose trigger evaluates true. -/
def candidates (beats : List StoryBeat) (d : DirectorState)
    (game_state : GameState) : List StoryBeat :=
  beats.filter (fun b =>
    !(b.once && d.beat_completed.contains b.id) && b.trigger game_state)

/-- `candidates.sort(key=priority)` is a stable sort, so
`candidates[0]` after sorting is the first candidate attaining the
minimal priority; this computes that element directly. -/
def firstMinPriority : List StoryBeat → Option StoryBeat
  | [] => none
  | b :: bs =>
      some (bs.foldl (fun best c => if c.priority < best.priority then c else best) b)

/-- `StoryDirector.get_active_instruction`, beat-selection part: among
candidates, the lowest-priority beat, ties broken by declaration order;
`none` when there is no candidate.  (The returned instruction text is
prompt assembly and carries no state.) -/
def get_active_instruction (beats : List StoryBeat) (d : DirectorState)
    (game_state : GameState) : Option StoryBeat :=
  firstMinPriority (candidates beats d game_state)

/-- `StoryDirector.validate_beat_execution`: the baseline is a lowercased
substring check of each required element (quality = found/required, `1.0`
with no required elements; success iff nothing is missing).  The judge
call and its JSON parse are the `try` body: a parsed verdict (`judge =
some v`) overrides success (`data.get("success", False)`) and quality
(`float(data.get("quality", base_quality))`); a failed call or unparseable
reply (`judge = none`) returns the baseline. -/
def validate_beat_execution (beat : StoryBeat) (llm_response : String)
    (judge : Option JudgeVerdict) : Bool × ℚ × List String :=
  let response_lower := strLower llm_response
  let missing := beat.required_elements.filter
    (fun element => !substrStr (strLower element) response_lower)
  let base_quality : ℚ :=
    if beat.required_elements.isEmpty then 1
    else ((beat.required_elements.length - missing.length : ℤ) : ℚ) /
      (beat.required_elements.length : ℚ)
  let base_success := missing.length == 0
  match judge with
  | some data => (data.success.getD false, data.quality.getD base_quality, missing)
  | none => (base_success, base_quality, missing)

/-- `StoryDirector.mark_beat_completed`: append an execution record; a
`once` beat's id joins the completed set. -/
def mark_beat_completed (beat : StoryBeat) (narrative_text : String)
    (quality : ℚ) (d : DirectorState) : DirectorState :=
  let execution : BeatExecution :=
    { beat_id := beat.id, triggered_at := 0, completed := true,
      execution_quality := quality,
      narrative_snapshot := narrative_text.take 500 }
  { beat_history := d.beat_history ++ [execution],
    beat_completed :=
      if beat.once then
        if d.beat_completed.contains beat.id then d.beat_completed
        else d.beat_completed ++ [beat.id]
      else d.beat_completed }

/-- `StoryDirector.apply_consequences`: apply each effective clause;
affinity deltas clamp into `[0, 100]` and only touch companions present
in the affinity map; flag clauses write the boolean into the flag map. -/
def apply_consequences (clauses : List BeatConsequence)
    (game_state : GameState) : GameState :=
  clauses.foldl
    (fun gs clause =>
      match clause with
      | .affinityChange ch amount =>
          if alistMem gs.affinity ch then
            let newVal := max 0 (min 100 (alistGetD gs.affinity ch 0 + amount))
            { gs with affinity := alistSet gs.affinity ch newVal }
          else gs
      | .flagSet name value =>
          { gs with flags := alistSet gs.flags name (.vBool value) })
    game_state

end StoryDirector

/-! ### Generation manager (`luna/ai/manager.py`) -/

/-- A detailed outfit update proposed by the model.  Modelled from the
spec (absent `luna/core/models.py`); fields from
`GameEngine._apply_outfit_update`. -/
structure OutfitUpdate where
  style : Option String := none
  description : Option String := none
  modify_components : List (String × String) := []
  is_special : Option Bool := none
deriving DecidableEq

/-- The structured state updates proposed by the model.  Modelled from
the spec's generation-provider response schema (absent
`luna/core/models.py`); fields from `GameEngine._validate_updates`. -/
structure StateUpdate where
  affinity_change : List (String × Int) := []
  current_outfit : Option String := none
  outfit_update : Option OutfitUpdate := none
  location : Option String := none
  time_of_day : Option String := none
  set_flags : List (String × PyVal) := []
  npc_emotion : Option String := none
  new_fact : Option String := none
deriving DecidableEq

/-- A provider response.  Modelled from the spec's generation-provider
contract (absent `luna/core/models.py`). -/
structure LLMResponse where
  text : String
  visual_en : String := ""
  tags_en : List String := []
  provider : String := ""
  updates : StateUpdate := {}
deriving DecidableEq

namespace LLMManager

/-- `LLMManager._is_valid_response`: non-empty, not the internal error
marker, and at least 5 characters after stripping whitespace. -/
def is_valid_response (response : LLMResponse) : Bool :=
  if response.text == "" then false
  else if strStartsWith response.text "[Error:" then false
  else if (strStrip response.text).length < 5 then false
  else true

/-- The configured clients and, for each configured client, the outcome
of `_generate_with_retry` on this request: `Except.error` stands for an
exception escaping the bounded retry, `Except.ok` for a returned
response.  `none` means the client is not configured.  The mock client's
`generate` is called outside any `try` and is modelled as returning. -/
structure ProviderSetup where
  primary : Option (Except Unit LLMResponse) := none
  fallback : Option (Except Unit LLMResponse) := none
  mock : Option LLMResponse := none

/-- `LLMManager.generate`: forced mock first; then the primary (Gemini),
kept only if it returns a valid response; then the fallback (Moonshot)
under the same rule; then the mock unconditionally; else the fatal
`RuntimeError` (`Except.error`).  Also returns the list of providers
invoked, in order. -/
def generate (setup : ProviderSetup) (use_mock : Bool := false) :
    Except Unit LLMResponse × List String :=
  if use_mock && setup.mock.isSome then
    (.ok (setup.mock.getD { text := "" }), ["mock"])
  else
    let (primaryHit, invoked1) :=
      match setup.primary with
      | some (.ok result) =>
          if is_valid_response result then (some result, ["gemini"])
          else (none, ["gemini"])
      | some (.error _) => (none, ["gemini"])
      | none => (none, [])
    match primaryHit with
    | some r => (.ok r, invoked1)
    | none =>
        let (fallbackHit, invoked2) :=
          match setup.fallback with
          | some (.ok result) =>
              if is_valid_response result then (some result, invoked1 ++ ["moonshot"])
              else (none, invoked1 ++ ["moonshot"])
          | some (.error _) => (none, invoked1 ++ ["moonshot"])
          | none => (none, invoked1)
        match fallbackHit with
        | some r => (.ok r, invoked2)
        | none =>
            match setup.mock with
            | some r => (.ok r, invoked2 ++ ["mock"])
            | none => (.error (), invoked2)

end LLMManager

/-! ### Memory manager (`luna/systems/memory.py`) -/

/-- A conversation message.  Modelled from the spec (absent
`luna/core/models.py`); fields from `memory.py`. -/
structure ConversationMessage where
  role : String
  content : String
  turn_number : Int
  visual_en : String := ""
  tags_en : List String := []
deriving DecidableEq

/-- A durable fact or summary held in the in-memory fact cache.
Modelled from the spec (absent `luna/core/models.py`); fields from
`memory.py`. -/
structure MemoryEntry where
  id : Option Nat := none
  mtype : String := "fact"
  content : String
  turn_count : Int := 0
  importance : Int := 5
deriving DecidableEq

/-- A row of the persistent memory table (`db.add_memory`). -/
structure DBMemory where
  memory_type : String
  content : String
  turn_number : Int
  importance : Int
deriving DecidableEq

namespace KeywordExtractor

/-- A character matched by the extraction pattern
`[a-zA-Zàèéìòóù]` after lowercasing. -/
def kwChar (c : Char) : Bool :=
  ('a' ≤ c && c ≤ 'z') || c ∈ ['à', 'è', 'é', 'ì', 'ò', 'ó', 'ù']

/-- Maximal runs of keyword characters, mirroring
`re.findall(r'\b[a-zA-Zàèéìòóù]+\b', text)`. -/
def wordsAux : List Char → List Char → List String
  | [], acc => if acc.isEmpty then [] else [String.mk acc.reverse]
  | c :: rest, acc =>
      if kwChar c then wordsAux rest (c :: acc)
      else if acc.isEmpty then wordsAux rest []
      else String.mk acc.reverse :: wordsAux rest []

/-- The stop-word set (Italian and English). -/
def STOP_WORDS : List String :=
  ["il", "lo", "la", "i", "gli", "le", "un", "uno", "una",
   "di", "del", "della", "dei", "delle", "a", "al", "alla",
   "ai", "alle", "da", "dal", "dalla", "dai", "dalle",
   "in", "nel", "nella", "nei", "nelle", "con", "su",
   "per", "tra", "fra", "è", "sono", "era", "erano",
   "ho", "hai", "ha", "abbiamo", "avete", "hanno",
   "the", "a", "an", "is", "are", "was", "were", "be",
   "been", "being", "have", "has", "had", "do", "does",
   "did", "will", "would", "could", "should", "may",
   "might", "must", "can", "this", "that", "these",
   "those", "i", "you", "he", "she", "it", "we", "they",
   "me", "him", "her", "us", "them", "my", "your", "his",
   "in", "on", "at", "to", "for", "of", "with", "about"]

/-- `KeywordExtractor.extract`: lowercase, split into words, drop stop
words and short words.  The source collects a Python `set`, whose
iteration order is interpreter-defined; the embedding fixes
first-occurrence order and removes duplicates. -/
def extract (text : String) (min_length : Nat := 3) : List String :=
  ((wordsAux (strLower text).toList []).filter
    (fun w => !STOP_WORDS.contains w && w.length ≥ min_length)).dedup

/-- `KeywordExtractor.calculate_similarity`: keyword Jaccard overlap. -/
def calculate_similarity (text1 text2 : String) : ℚ :=
  let keywords1 := extract text1
  let keywords2 := extract text2
  if keywords1.isEmpty || keywords2.isEmpty then 0
  else
    let intersection := keywords1.filter (fun w => keywords2.contains w)
    let union := keywords1 ++ keywords2.filter (fun w => !keywords1.contains w)
    (intersection.length : ℚ) / (union.length : ℚ)

end KeywordExtractor

/-- Stable descending insertion by a rational key (Python `sorted` with
`reverse=True` is stable). -/
def insertDescBy {α : Type} (key : α → ℚ) (x : α) : List α → List α
  | [] => [x]
  | y :: ys => if key y ≥ key x then y :: insertDescBy key x ys else x :: y :: ys

/-- Stable descending sort by a rational key. -/
def sortDescBy {α : Type} (key : α → ℚ) (l : List α) : List α :=
  l.foldl (fun acc x => insertDescBy key x acc) []

/-- A ranked search hit (`MemorySearchResult`). -/
structure MemorySearchResult where
  memory : MemoryEntry
  score : ℚ
  match_type : String

namespace MemoryManager

/-- The manager's mutable state: history limit, the in-memory caches,
and the session's persistent stores (messages and memories), with the
autoincrement id the next `db.add_memory` row receives. -/
structure MemoryState where
  history_limit : Nat := 50
  recent_messages : List ConversationMessage := []
  facts : List MemoryEntry := []
  enable_semantic : Bool := false
  db_messages : List ConversationMessage := []
  db_memories : List DBMemory := []
  next_mem_id : Nat := 1

/-- `MemoryManager._compress_history`: below `limit + 10` retained
messages nothing happens; otherwise the 10 oldest messages are joined
into one `summary` memory of importance 3 spanning their turn range
(written to the database only), the cache drops those 10, and the
persistent message table keeps the newest `limit` rows. -/
def compress_history (s : MemoryState) : MemoryState :=
  if s.recent_messages.length < s.history_limit + 10 then s
  else
    match s.recent_messages.take 10 with
    | [] => s
    | m0 :: ms =>
        let to_compress := m0 :: ms
        let start_turn := m0.turn_number
        let end_turn := (to_compress.getLast?.getD m0).turn_number
        let all_content := String.intercalate " " (to_compress.map (·.content))
        let keywords := KeywordExtractor.extract all_content
        let key_topics :=
          if keywords.isEmpty then "general conversation"
          else String.intercalate ", " (keywords.take 5)
        let n := to_compress.length
        let summary_text :=
          s!"Summary of turns {start_turn}-{end_turn}: " ++
          s!"Discussed topics: {key_topics}. ({n} messages)"
        { s with
          db_memories := s.db_memories ++
            [{ memory_type := "summary", content := summary_text,
               turn_number := end_turn, importance := 3 }],
          next_mem_id := s.next_mem_id + 1,
          recent_messages := s.recent_messages.drop 10,
          db_messages :=
            s.db_messages.drop (s.db_messages.length - s.history_limit) }

/-- `MemoryManager.add_message`: append to the cache and the database,
then compress if the retained count passed the limit. -/
def add_message (role content : String) (turn_number : Int)
    (s : MemoryState) (visual_en : String := "")
    (tags_en : List String := []) : MemoryState :=
  let message : ConversationMessage :=
    { role := role, content := content, turn_number := turn_number,
      visual_en := visual_en, tags_en := tags_en }
  let s := { s with
    recent_messages := s.recent_messages ++ [message],
    db_messages := s.db_messages ++ [message] }
  if s.recent_messages.length > s.history_limit then compress_history s
  else s

/-- `MemoryManager.add_fact`: append a fact to the cache and the
database; the cached entry receives the database row id. -/
def add_fact (content : String) (turn_number : Int) (importance : Int)
    (s : MemoryState) : MemoryState :=
  let fact : MemoryEntry :=
    { id := some s.next_mem_id, mtype := "fact", content := content,
      turn_count := turn_number, importance := importance }
  { s with
    facts := s.facts ++ [fact],
    db_memories := s.db_memories ++
      [{ memory_type := "fact", content := content,
         turn_number := turn_number, importance := importance }],
    next_mem_id := s.next_mem_id + 1 }

/-- `MemoryManager.get_important_facts`: facts at or above the threshold,
stably sorted by importance descending, truncated. -/
def get_important_facts (min_importance : Int := 5) (limit : Nat := 20)
    (s : MemoryState) : List MemoryEntry :=
  (sortDescBy (fun f => (f.importance : ℚ))
    (s.facts.filter (fun f => f.importance ≥ min_importance))).take limit

/-- Section 1 of `MemoryManager.search_memories`: the keyword pass.
Each fact at or above the importance threshold is scored by Jaccard
similarity plus a `0.1` bonus per matching keyword; positive scores
enter the table keyed by the fact's id (`fact.id or 0`). -/
def keywordScores (query : String) (min_importance : Int)
    (facts : List MemoryEntry) :
    List (Nat × (MemoryEntry × ℚ × String)) :=
  let query_keywords := KeywordExtractor.extract query
  facts.foldl
    (fun scores fact =>
      if fact.importance < min_importance then scores
      else
        let keyword_sim := KeywordExtractor.calculate_similarity query fact.content
        let fact_keywords := KeywordExtractor.extract fact.content
        let keyword_overlap := query_keywords.filter
          (fun w => fact_keywords.contains w)
        let keyword_sim :=
          if !keyword_overlap.isEmpty then
            keyword_sim + (keyword_overlap.length : ℚ) * (1 / 10)
          else keyword_sim
        if keyword_sim > 0 then
          nlistSet scores (fact.id.getD 0) (fact, keyword_sim, "keyword")
        else scores)
    []

/-- Section 2 of `MemoryManager.search_memories`: merge the semantic
store's hits by fact id; a fact already scored keeps
`max(existing, 0.9 * semantic) + 0.1` as a `hybrid` score. -/
def semanticMerge (min_importance : Int) (semantic_results : List (Nat × ℚ))
    (facts : List MemoryEntry)
    (scores0 : List (Nat × (MemoryEntry × ℚ × String))) :
    List (Nat × (MemoryEntry × ℚ × String)) :=
  semantic_results.foldl
    (fun scores p =>
      let (fact_id, score) := p
      match facts.find? (fun f =>
          f.id == some fact_id && f.importance ≥ min_importance) with
      | some fact =>
          match nlistGet scores fact_id with
          | some (_, existing_score, _) =>
              let combined_score := max existing_score (score * (9 / 10)) + 1 / 10
              nlistSet scores fact_id (fact, combined_score, "hybrid")
          | none => nlistSet scores fact_id (fact, score, "semantic")
      | none => scores)
    scores0

/-- Section 3 of `MemoryManager.search_memories`: importance backfill for
thin result sets. -/
def importanceBackfill (min_importance : Int) (facts : List MemoryEntry)
    (scores0 : List (Nat × (MemoryEntry × ℚ × String))) :
    List (Nat × (MemoryEntry × ℚ × String)) :=
  facts.foldl
    (fun scores fact =>
      let absent :=
        match fact.id with
        | some i => !nlistMem scores i
        | none => true
      if absent && fact.importance ≥ min_importance + 3 then
        let importance_boost := ((fact.importance - 5 : Int) : ℚ) / 100
        nlistSet scores (fact.id.getD 0) (fact, importance_boost, "importance")
      else scores)
    scores0

/-- `MemoryManager.search_memories`: keyword scores, semantic scores
merged by fact id (when semantic search is enabled; the store's reply is
the `semantic_results` argument, keyed by database fact id), an
importance backfill when fewer than `k` facts scored, then a stable
descending sort truncated to `k`. -/
def search_memories (query : String) (k : Nat) (min_importance : Int)
    (semantic_results : List (Nat × ℚ)) (s : MemoryState) :
    List MemorySearchResult :=
  if s.facts.isEmpty then []
  else
    let memory_scores := keywordScores query min_importance s.facts
    let memory_scores :=
      if s.enable_semantic then
        semanticMerge min_importance semantic_results s.facts memory_scores
      else memory_scores
    let memory_scores :=
      if memory_scores.length < k then
        importanceBackfill min_importance s.facts memory_scores
      else memory_scores
    let sorted_results :=
      (sortDescBy (fun v => v.2.1) (memory_scores.map Prod.snd)).take k
    sorted_results.map (fun v =>
      { memory := v.1, score := v.2.1, match_type := v.2.2 })

/-- The fact list embedded in `MemoryManager.get_memory_context`'s
output: targeted search when a non-empty query is given and either
semantic search is enabled or more than 20 facts are cached; otherwise
the importance-ranked selection. -/
def get_memory_context_facts (query : Option String) (max_facts : Nat)
    (min_importance : Int) (semantic_results : List (Nat × ℚ))
    (s : MemoryState) : List MemoryEntry :=
  if query.isSome && query ≠ some "" &&
      (s.enable_semantic || s.facts.length > 20) then
    (search_memories (query.getD "") max_facts min_importance
      semantic_results s).map (·.memory)
  else
    get_important_facts min_importance max_facts s

end MemoryManager

/-! ### Personality engine (`luna/systems/personality.py`) -/

/-- The nine behavior categories.  Modelled from the spec (absent
`luna/core/models.py`); the pattern table covers eight, `neutral` has no
patterns. -/
inductive BehaviorType where
  | aggressive
  | shy
  | romantic
  | dominant
  | submissive
  | curious
  | teasing
  | protective
  | neutral
deriving DecidableEq

/-- Trait intensity tiers.  Modelled from the spec (absent
`luna/core/models.py`): subtle, moderate, strong. -/
inductive TraitIntensity where
  | subtle
  | moderate
  | strong
deriving DecidableEq

/-- Behavioral memory for one trait.  Modelled from the spec (absent
`luna/core/models.py`): occurrence count, last-seen turn, and a derived
intensity tier. -/
structure BehavioralMemory where
  trait : BehaviorType
  occurrences : Nat := 0
  last_turn : Int := 0
  intensity : TraitIntensity := .subtle
deriving DecidableEq

/-- `BehavioralMemory.update`.  Modelled from the spec: the occurrence
count increments, the last-seen turn updates, and the intensity tier is
derived from the count at fixed thresholds (the spec leaves the exact
thresholds open; the embedding fixes moderate at ≥ 3 and strong at ≥ 7,
which no claim depends on). -/
def BehavioralMemory.update (turn : Int) (m : BehavioralMemory) :
    BehavioralMemory :=
  let occurrences := m.occurrences + 1
  let intensity : TraitIntensity :=
    if occurrences ≥ 7 then .strong
    else if occurrences ≥ 3 then .moderate
    else .subtle
  { m with occurrences := occurrences, last_turn := turn, intensity := intensity }

/-- The five-dimension impression vector.  Modelled from the spec
(absent `luna/core/models.py`). -/
structure Impression where
  trust : Int := 0
  attraction : Int := 0
  fear : Int := 0
  curiosity : Int := 0
  dominance_balance : Int := 0
deriving DecidableEq

/-- An NPC-to-NPC link.  Modelled from the spec (absent
`luna/core/models.py`). -/
structure NPCLink where
  target_npc : String
  rapport : Int := 0
  jealousy_sensitivity : ℚ := 1 / 2
  awareness_of_player : Int := 0

/-- Per-NPC psychological state.  Modelled from the spec (absent
`luna/core/models.py`). -/
structure PersonalityState where
  character_name : String
  behavioral_memory : List (BehaviorType × BehavioralMemory) := []
  impression : Impression := {}
  npc_links : List (String × NPCLink) := []
  detected_archetype : Option String := none
  archetype_cache_turn : Int := -1

/-- Generic dict lookup for non-string keys. -/
def dictGet {κ α : Type} [DecidableEq κ] (l : List (κ × α)) (k : κ) :
    Option α :=
  (l.find? (fun p => p.1 = k)).map Prod.snd

/-- Generic dict assignment for non-string keys. -/
def dictSet {κ α : Type} [DecidableEq κ] :
    List (κ × α) → κ → α → List (κ × α)
  | [], k, v => [(k, v)]
  | p :: rest, k, v =>
      if p.1 = k then (k, v) :: rest else p :: dictSet rest k v

namespace PersonalityEngine

/-- `BehavioralUpdate`. -/
structure BehavioralUpdate where
  detected_traits : List (BehaviorType × TraitIntensity) := []
  impression_changes : List (String × Int) := []
  archetype_hint : Option String := none

/-- The engine's mutable state: per-NPC personality states plus the
deep-analysis configuration and conversation buffer. -/
structure EngineState where
  states : List (String × PersonalityState) := []
  use_llm : Bool := false
  llm_interval : Int := 3
  conversation_buffer : List (String × String) := []

/-- A word character for `\b` boundaries (`[A-Za-z0-9_]`). -/
def isWordChar (c : Char) : Bool :=
  c.isAlphanum || c == '_'

/-- Whether the alternative matches at the head of `cs` with word
boundaries on both sides (`prev` is the character before the head). -/
def boundedAt (alt : List Char) (prev : Option Char) (cs : List Char) :
    Bool :=
  alt.isPrefixOf cs &&
  (match prev with
   | some c => !isWordChar c
   | none => true) &&
  (match cs.drop alt.length with
   | [] => true
   | c :: _ => !isWordChar c)

/-- Search one alternative anywhere in the text with `\b` boundaries. -/
def searchBoundedAux (alt : List Char) : Option Char → List Char → Bool
  | _, [] => false
  | prev, c :: rest =>
      boundedAt alt prev (c :: rest) || searchBoundedAux alt (some c) rest

/-- `re.search(r"\b(alt1|alt2|...)\b", text, re.IGNORECASE)` for the
literal alternatives of the behavior pattern table. -/
def regexAltSearch (alts : List String) (text : String) : Bool :=
  let cs := (strLower text).toList
  alts.any (fun a => searchBoundedAux (strLower a).toList none cs)

/-- `PersonalityEngine.BEHAVIOR_PATTERNS`: each behavior maps to its
list of patterns (each pattern an alternation of literals). -/
def BEHAVIOR_PATTERNS : List (BehaviorType × List (List String)) :=
  [(.aggressive,
    [["attack", "hit", "force", "threat", "angry", "mad", "shout", "yell"],
     ["ordina", "comanda", "minacci", "colp", "attacc"]]),
   (.shy,
    [["awkward", "nervous", "blush", "stutter", "look away", "hesitate"],
     ["imbarazz", "nervos", "arross", "balbett", "distogli"]]),
   (.romantic,
    [["love", "kiss", "hug", "caress", "beautiful", "stunning", "compliment"],
     ["amo", "baci", "abbracc", "carezz", "bell", "stupend", "compliment"]]),
   (.dominant,
    [["obey", "submit", "control", "command", "dominate", "order"],
     ["obbedi", "sottomett", "controll", "comand", "domin", "ordina"]]),
   (.submissive,
    [["sorry", "please", "thank", "grateful", "obey", "yield", "apologize"],
     ["scus", "perdon", "prego", "grazie", "ubbidi", "ced"]]),
   (.curious,
    [["why", "how", "what", "question", "wonder", "ask", "investigate"],
     ["perche", "perché", "come", "cosa", "domand", "chied", "indaga"]]),
   (.teasing,
    [["teas", "joke", "mock", "playful", "smirk", "flirt"],
     ["stuzzic", "scherz", "flirt", "gioc", "sorrid"]]),
   (.protective,
    [["protect", "defend", "shield", "save", "help", "rescue"],
     ["protegg", "difend", "salv", "aiut", "soccorr"]])]

/-- `PersonalityEngine.IMPACT_MATRIX`: impression deltas per behavior. -/
def IMPACT_MATRIX (b : BehaviorType) : List (String × Int) :=
  match b with
  | .aggressive =>
      [("trust", -10), ("attraction", -5), ("fear", 15), ("dominance_balance", -10)]
  | .shy => [("trust", 5), ("attraction", 10), ("fear", -5), ("dominance_balance", 5)]
  | .romantic => [("trust", 5), ("attraction", 15), ("curiosity", 5)]
  | .dominant => [("attraction", 5), ("fear", 10), ("dominance_balance", -20)]
  | .submissive => [("trust", 5), ("fear", -10), ("dominance_balance", 15)]
  | .curious => [("trust", 5), ("curiosity", 10)]
  | .teasing => [("attraction", 10), ("curiosity", 5), ("dominance_balance", -5)]
  | .protective => [("trust", 15), ("attraction", 5), ("fear", -10)]
  | .neutral => []

/-- `PersonalityEngine._ensure_state`. -/
def ensure_state (states : List (String × PersonalityState))
    (companion_name : String) :
    PersonalityState × List (String × PersonalityState) :=
  match alistGet states companion_name with
  | some st => (st, states)
  | none =>
      let st : PersonalityState := { character_name := companion_name }
      (st, alistSet states companion_name st)

/-- `PersonalityEngine._record_behavior`: create the trait record if
absent, then `update` it. -/
def record_behavior (states : List (String × PersonalityState))
    (companion_name : String) (behavior : BehaviorType) (turn : Int) :
    List (String × PersonalityState) :=
  let (st, states) := ensure_state states companion_name
  let memory := (dictGet st.behavioral_memory behavior).getD
    { trait := behavior, occurrences := 0, last_turn := 0, intensity := .subtle }
  let bm := dictSet st.behavioral_memory behavior (memory.update turn)
  let st := { st with behavioral_memory := bm }
  alistSet states companion_name st

/-- `PersonalityEngine._get_behavior_intensity`. -/
def get_behavior_intensity (states : List (String × PersonalityState))
    (companion_name : String) (behavior : BehaviorType) :
    TraitIntensity × List (String × PersonalityState) :=
  let (st, states) := ensure_state states companion_name
  (((dictGet st.behavioral_memory behavior).map (·.intensity)).getD .subtle,
   states)

/-- Clamp into `[-100, 100]`. -/
def clampImp (n : Int) : Int := max (-100) (min 100 n)

/-- `PersonalityEngine._apply_impression_changes`: apply each dimension's
accumulated delta with clamping into `[-100, 100]`. -/
def apply_impression_changes (states : List (String × PersonalityState))
    (companion_name : String) (changes : List (String × Int)) :
    List (String × PersonalityState) :=
  let (st, states) := ensure_state states companion_name
  let imp := st.impression
  let imp : Impression :=
    { trust := clampImp (imp.trust + alistGetD changes "trust" 0),
      attraction := clampImp (imp.attraction + alistGetD changes "attraction" 0),
      fear := clampImp (imp.fear + alistGetD changes "fear" 0),
      curiosity := clampImp (imp.curiosity + alistGetD changes "curiosity" 0),
      dominance_balance :=
        clampImp (imp.dominance_balance +
          alistGetD changes "dominance_balance" 0) }
  alistSet states companion_name { st with impression := imp }

/-- Python `int()` truncation of a rational toward zero. -/
def truncQ (q : ℚ) : Int :=
  if q ≥ 0 then q.floor else -((-q).floor)

/-- `PersonalityEngine._update_npc_awareness`: when a moderate-or-strong
behavior was detected, other companions holding a link to the active one
gain awareness proportional to their jealousy sensitivity, capped at
100. -/
def update_npc_awareness (states : List (String × PersonalityState))
    (active_companion : String)
    (detected_traits : List (BehaviorType × TraitIntensity)) :
    List (String × PersonalityState) :=
  if detected_traits.isEmpty then states
  else
    let significant := detected_traits.any (fun p =>
      p.2 = TraitIntensity.moderate ∨ p.2 = TraitIntensity.strong)
    if !significant then states
    else
      states.map (fun p =>
        let (name, st) := p
        if name == active_companion then p
        else
          match alistGet st.npc_links active_companion with
          | some link =>
              let increase := truncQ (5 * link.jealousy_sensitivity)
              let aware := min 100 (link.awareness_of_player + increase)
              let link := { link with awareness_of_player := aware }
              let links := alistSet st.npc_links active_companion link
              (name, { st with npc_links := links })
          | none => p)

/-- `PersonalityEngine._detect_archetype_hint`: the cached archetype. -/
def detect_archetype_hint (states : List (String × PersonalityState))
    (companion_name : String) :
    Option String × List (String × PersonalityState) :=
  let (st, states) := ensure_state states companion_name
  (st.detected_archetype, states)

/-- `PersonalityEngine.analyze_player_action`: walk the pattern table in
declaration order; on the first matching pattern of a behavior, record
the behavior, note its (updated) intensity, and accumulate the
behavior's impression impacts; finally apply the accumulated impression
deltas with clamping, propagate NPC awareness, and attach the cached
archetype hint. -/
def analyze_player_action (es : EngineState) (companion_name : String)
    (user_input : String) (turn_count : Int) :
    BehavioralUpdate × EngineState :=
  let step := BEHAVIOR_PATTERNS.foldl
    (fun acc bp =>
      let (detected, impression_changes, states) := acc
      let (behavior_type, patterns) := bp
      if patterns.any (fun pat => regexAltSearch pat user_input) then
        let states := record_behavior states companion_name behavior_type turn_count
        let (intensity, states) :=
          get_behavior_intensity states companion_name behavior_type
        let impression_changes :=
          (IMPACT_MATRIX behavior_type).foldl
            (fun ch p =>
              alistSet ch p.1 (alistGetD ch p.1 0 + p.2))
            impression_changes
        (detected ++ [(behavior_type, intensity)], impression_changes, states)
      else acc)
    (([] : List (BehaviorType × TraitIntensity)),
     ([] : List (String × Int)), es.states)
  let (detected, impression_changes, states) := step
  let states := apply_impression_changes states companion_name impression_changes
  let states := update_npc_awareness states companion_name detected
  let (archetype, states) := detect_archetype_hint states companion_name
  ({ detected_traits := detected, impression_changes := impression_changes,
     archetype_hint := archetype },
   { es with states := states })

/-- `PersonalityEngine.analyze_with_llm`: buffer the exchange (keeping
the last six messages); on non-interval turns return without analysis;
otherwise the analyzer's reply (the `analysis` argument; `none` models a
failed call) contributes impression deltas applied with clamping. -/
def analyze_with_llm (es : EngineState) (companion_name : String)
    (user_input assistant_response : String) (turn_count : Int)
    (analysis : Option (List (String × Int))) : EngineState :=
  if !es.use_llm then es
  else
    let buffer := es.conversation_buffer ++
      [("user", user_input), ("assistant", assistant_response)]
    let buffer := if buffer.length > 6 then
        buffer.drop (buffer.length - 6)
      else buffer
    let es := { es with conversation_buffer := buffer }
    if es.llm_interval ≠ 0 ∧ turn_count % es.llm_interval ≠ 0 then es
    else
      match analysis with
      | some impression_changes =>
          let states := apply_impression_changes es.states companion_name
            impression_changes
          { es with states := states }
      | none => es

end PersonalityEngine

/-! ### Game engine (`luna/core/engine.py`) -/

/-- A companion definition, reduced to what the engine consults.
Modelled from the spec (absent content-loader models): `wardrobe` is the
key set of the companion's wardrobe. -/
structure CompanionDef where
  wardrobe : List String := []
deriving DecidableEq

/-- The immutable world definition slice the engine consults. -/
structure WorldDef where
  companions : List (String × CompanionDef) := []
  locations : List String := []
  quests : List (String × QuestDefinition) := []
  beats : List StoryBeat := []

namespace GameEngine

/-- The validated-updates dict produced by `_validate_updates` (an
absent key is identified with its empty/`none` form, which downstream
`get`-with-default reads cannot distinguish). -/
structure ValidatedUpdates where
  affinity_change : List (String × Int) := []
  current_outfit : Option String := none
  outfit_update : Option OutfitUpdate := none
  location : Option String := none
  time_of_day : Option String := none
  set_flags : List (String × PyVal) := []
  npc_emotion : Option String := none
deriving DecidableEq

/-- `GameEngine._validate_updates`: affinity deltas for companions
present in the affinity map are clamped into `[-5, 5]`; a proposed
outfit must be in the active companion's wardrobe; a proposed location
must exist; time, flags, outfit detail and NPC emotion pass through. -/
def validate_updates (updates : StateUpdate) (world : WorldDef)
    (game_state : GameState) : ValidatedUpdates :=
  { affinity_change :=
      (updates.affinity_change.filter
        (fun p => alistMem game_state.affinity p.1)).map
        (fun p => (p.1, max (-5) (min 5 p.2))),
    current_outfit :=
      match updates.current_outfit with
      | some o =>
          if o != "" &&
              (match alistGet world.companions game_state.active_companion with
               | some companion => companion.wardrobe.contains o
               | none => false)
          then some o else none
      | none => none,
    outfit_update := updates.outfit_update,
    location :=
      match updates.location with
      | some l => if l != "" && world.locations.contains l then some l else none
      | none => none,
    time_of_day :=
      match updates.time_of_day with
      | some t => if t != "" then some t else none
      | none => none,
    set_flags := updates.set_flags,
    npc_emotion :=
      match updates.npc_emotion with
      | some e => if e != "" then some e else none
      | none => none }

/-- `GameEngine._apply_outfit_update`: only the style change is visible
in the embedded state (the description/component/special-flag writes
touch the detailed outfit record, which carries no game logic). -/
def apply_outfit_update (update : OutfitUpdate) (game_state : GameState) :
    GameState :=
  match update.style with
  | some style =>
      if style != "" then StateManager.set_outfit_style style game_state
      else game_state
  | none => game_state

/-- `GameEngine._apply_updates`: affinity deltas through
`change_affinity` (clamping to `[0, 100]`), then outfit, location, time
(the Python `TimeOfDay(...)` constructor raises on a value outside the
enum; the embedding stores the string), flags and NPC emotion. -/
def apply_updates (updates : ValidatedUpdates) (game_state : GameState) :
    GameState :=
  let gs := updates.affinity_change.foldl
    (fun g p => StateManager.change_affinity p.1 p.2 g) game_state
  let gs := match updates.current_outfit with
    | some o => StateManager.set_outfit_style o gs
    | none => gs
  let gs := match updates.outfit_update with
    | some u => apply_outfit_update u gs
    | none => gs
  let gs := match updates.location with
    | some l => StateManager.set_location l gs
    | none => gs
  let gs := match updates.time_of_day with
    | some t => StateManager.set_time t gs
    | none => gs
  let gs := updates.set_flags.foldl
    (fun g p => StateManager.set_flag p.1 p.2 g) gs
  match updates.npc_emotion with
  | some e => StateManager.update_npc_emotion gs.active_companion e gs
  | none => gs

/-- `TurnResult` (media paths and the media task carry no game state). -/
structure TurnResult where
  text : String
  affinity_changes : List (String × Int) := []
  new_quests : List String := []
  completed_quests : List String := []
  turn_number : Int := 0
  provider_used : String := ""
  error : Option String := none

/-- The full in-memory state the turn loop threads. -/
structure FullState where
  game : GameState := {}
  quest_states : QuestEngine.States := []
  director : StoryDirector.DirectorState := {}
  personality : PersonalityEngine.EngineState := {}
  memory : MemoryManager.MemoryState := {}

/-- The outcome of `LocationManager` movement handling for a
movement-intent input (`none`: the target did not resolve and the turn
proceeds normally).  The resolution logic itself lives in
`luna/systems/location.py`, outside the orchestration core verified
here. -/
structure MovementOutcome where
  success : Bool
  text : String
  target : String := ""

/-- The outcomes of the external calls one turn can make: the main
generation call (`none` models an exception escaping
`LLMManager.generate`), the semantic beat judge, movement resolution,
and the periodic deep personality analysis. -/
structure TurnOracle where
  llm : Except String LLMResponse
  judge : Option JudgeVerdict := none
  movement : Option MovementOutcome := none
  deepAnalysis : Option (List (String × Int)) := none

/-- The movement keyword list of `_check_and_handle_movement`. -/
def MOVEMENT_PATTERNS : List String :=
  ["vado ", "vai ", "andiamo ", "muoviti ", "spostati ",
   "entra ", "entriamo ", "uscire ", "uscite ",
   "raggiungi ", "raggiungiamo ",
   "torniamo ", "torna "]

/-- Whether the input carries a movement keyword. -/
def isMovementIntent (user_input : String) : Bool :=
  MOVEMENT_PATTERNS.any (fun pat => substrStr pat (strLower user_input))

/-- The pre-generation phase of `GameEngine.process_turn` (steps 1-3):
personality analysis, beat selection (read-only), quest activation and
active-quest processing.  Returns the threaded state, the selected
beat, the new quest titles and the quest updates. -/
def preGeneration (world : WorldDef) (fs : FullState) (user_input : String) :
    FullState × Option StoryBeat × List String × List QuestUpdateResult :=
  let game_state := fs.game
  let (_, pers) := PersonalityEngine.analyze_player_action fs.personality
    game_state.active_companion user_input game_state.turn_count
  let story_beat := StoryDirector.get_active_instruction world.beats
    fs.director game_state
  let activated := QuestEngine.check_activations world.quests
    fs.quest_states game_state
  let actStep := activated.foldl
    (fun acc quest_id =>
      let (new_quests, qstates, gs) := acc
      let (result, qstates, gs) :=
        QuestEngine.activate_quest world.quests quest_id qstates gs
      match result with
      | some r => (new_quests ++ [r.title], qstates, gs)
      | none => (new_quests, qstates, gs))
    (([] : List String), fs.quest_states, game_state)
  let (new_quests, qstates, gs) := actStep
  let active_ids := QuestEngine.get_active_quests qstates
  let procStep := active_ids.foldl
    (fun acc quest_id =>
      let (updates, qstates, gs) := acc
      let (result, qstates, gs) :=
        QuestEngine.process_turn world.quests quest_id qstates gs user_input
      match result with
      | some r => (updates ++ [r], qstates, gs)
      | none => (updates, qstates, gs))
    (([] : List QuestUpdateResult), qstates, gs)
  let (quest_updates, qstates, gs) := procStep
  ({ fs with game := gs, quest_states := qstates, personality := pers },
   story_beat, new_quests, quest_updates)

/-- `GameEngine.process_turn`: movement short-circuit, the
pre-generation phase, the generation call (an exception returns an
error `TurnResult` immediately), memory writes, response validation,
beat validation/consequences, state application, turn advance, and the
periodic deep personality pass.  Media generation and persistence are
external effects with no bearing on this state.  (The source invokes the
`async` beat validation without awaiting it; the embedding takes the
intended awaited semantics, which no theorem below depends on.) -/
def process_turn (world : WorldDef) (fs : FullState) (user_input : String)
    (oracle : TurnOracle) : TurnResult × FullState :=
  let game_state := fs.game
  let movement_result :=
    if isMovementIntent user_input then oracle.movement else none
  match movement_result with
  | some m =>
      let gs := if m.success then StateManager.set_location m.target game_state
        else game_state
      ({ text := m.text, turn_number := game_state.turn_count,
         provider_used := "system" }, { fs with game := gs })
  | none =>
      let (fs1, story_beat, new_quests, quest_updates) :=
        preGeneration world fs user_input
      match oracle.llm with
      | .error e =>
          ({ text := "[Error generating response. Please try again.]",
             error := some e,
             turn_number := fs1.game.turn_count }, fs1)
      | .ok llm_response =>
          let provider_used :=
            if llm_response.provider == "" then "unknown"
            else llm_response.provider
          let gs := fs1.game
          let mem := MemoryManager.add_message "user" user_input
            gs.turn_count fs1.memory
          let mem := MemoryManager.add_message "assistant" llm_response.text
            gs.turn_count mem llm_response.visual_en llm_response.tags_en
          let mem :=
            match llm_response.updates.new_fact with
            | some f =>
                if f != "" then MemoryManager.add_fact f gs.turn_count 7 mem
                else mem
            | none => mem
          let validated := validate_updates llm_response.updates world gs
          let (director, gs) :=
            match story_beat with
            | some beat =>
                let (success, quality, _) :=
                  StoryDirector.validate_beat_execution beat
                    llm_response.text oracle.judge
                if success then
                  (StoryDirector.mark_beat_completed beat llm_response.text
                    quality fs1.director,
                   StoryDirector.apply_consequences beat.consequence gs)
                else (fs1.director, gs)
            | none => (fs1.director, gs)
          let gs := apply_updates validated gs
          let gs := StateManager.advance_turn gs
          let pers := PersonalityEngine.analyze_with_llm fs1.personality
            gs.active_companion user_input llm_response.text gs.turn_count
            oracle.deepAnalysis
          let completed_quests :=
            (quest_updates.filter (·.quest_completed)).map (·.quest_id)
          ({ text := llm_response.text,
             affinity_changes := validated.affinity_change,
             new_quests := new_quests,
             completed_quests := completed_quests,
             turn_number := gs.turn_count,
             provider_used := provider_used },
           { game := gs, quest_states := fs1.quest_states,
             director := director, personality := pers, memory := mem })

end GameEngine

/-! ### Derived model vocabulary and concrete fixtures used by the
verification theorems -/

/-- All affinity values lie in `[0, 100]`. -/
def affinityInRange (gs : GameState) : Prop :=
  ∀ p ∈ gs.affinity, 0 ≤ p.2 ∧ p.2 ≤ 100

instance (gs : GameState) : Decidable (affinityInRange gs) := by
  unfold affinityInRange
  infer_instance

/-- One committed game-state mutation of the kinds the turn loop
performs: application of validated LLM updates
(`GameEngine._apply_updates`), one quest action
(`ActionExecutor.execute`), a quest's reward batch
(`_rewards_to_actions` + best-effort execution), or a beat's
consequences (`StoryDirector.apply_consequences`). -/
inductive CommitStep where
  | llmApply (v : GameEngine.ValidatedUpdates)
  | questAction (a : QuestAction)
  | questReward (r : QuestRewards)
  | beatConsequence (c : List BeatConsequence)

/-- Apply one commit step to the game state. -/
def applyCommit (gs : GameState) : CommitStep → GameState
  | .llmApply v => GameEngine.apply_updates v gs
  | .questAction a => (ActionExecutor.execute a gs).2
  | .questReward r => (execActions (QuestEngine.rewards_to_actions r) gs).2
  | .beatConsequence c => StoryDirector.apply_consequences c gs

/-- One quest-status operation on the game state
(`StateManager.start_quest` / `complete_quest` / `fail_quest`). -/
inductive QuestOp where
  | start (q : String)
  | complete (q : String)
  | fail (q : String)

/-- Apply one quest-status operation. -/
def applyQuestOp (gs : GameState) : QuestOp → GameState
  | .start q => (StateManager.start_quest q gs).2
  | .complete q => (StateManager.complete_quest q gs).2
  | .fail q => (StateManager.fail_quest q gs).2

/-- Fixture for the turn-count scenario: one quest whose stage `A` exits
on `turn >= 5` through `condition_0` to stage `B`. -/
def turnQuestDefs : List (String × QuestDefinition) :=
  [("q", { title := "Quest", start_stage := "A",
           stages :=
             [("A", { exit_conditions :=
                        [{ ctype := .turnCount, operator := "gte",
                           value := .vInt 5 }],
                      transitions :=
                        [{ condition := "condition_0",
                           target_stage := "B" }] }),
              ("B", { narrative_prompt := "at B" })] })]

/-- Fixture: the quest above, active at stage `A`. -/
def turnQuestStates : QuestEngine.States :=
  [("q", { quest_id := "q", status := .active, current_stage_id := "A" })]

/-- Fixture for the generation-failure counterexample: a quest active at
stage `a` whose exit condition holds immediately and whose target stage
sets a flag on entry. -/
def failWorld : WorldDef :=
  { quests :=
      [("q", { title := "Quest", start_stage := "a",
               stages :=
                 [("a", { exit_conditions :=
                            [{ ctype := .turnCount, operator := "gte",
                               value := .vInt 0 }],
                          transitions :=
                            [{ condition := "condition_0",
                               target_stage := "b" }] }),
                  ("b", { on_enter :=
                            [{ action := .setFlag, key := "visited_b",
                               value := .vBool true }] })] })] }

/-- Fixture: the full engine state for the generation-failure
counterexample. -/
def failState : GameEngine.FullState :=
  { game := { active_companion := "Luna", affinity := [("Luna", 50)] },
    quest_states :=
      [("q", { quest_id := "q", status := .active,
               current_stage_id := "a" })] }

/-- Fixture: a `once` beat whose trigger always holds. -/
def onceBeat : StoryBeat :=
  { id := "a", trigger := fun _ => true, priority := 1 }

/-- Fixture: ten buffered messages at turns 0 through 9. -/
def tenMessages : List ConversationMessage :=
  (List.range 10).map
    (fun i => { role := "user", content := "hi", turn_number := (i : Int) })

/-- Fixture: the first of the ten messages. -/
def msgHi : ConversationMessage :=
  { role := "user", content := "hi", turn_number := 0 }

/-! ### Helper lemmas -/

/-- Membership after a dict assignment: the element is the new binding
or was already present. -/
theorem mem_alistSet {α : Type} (l : List (String × α)) (k : String) (v : α)
    (p : String × α) (hp : p ∈ alistSet l k v) : p = (k, v) ∨ p ∈ l := by
  induction l with
  | nil => simpa [alistSet] using hp
  | cons q rest ih =>
      simp only [alistSet] at hp
      split at hp
      · rcases List.mem_cons.mp hp with h | h
        · exact Or.inl h
        · exact Or.inr (List.mem_cons_of_mem _ h)
      · rcases List.mem_cons.mp hp with h | h
        · exact Or.inr (h ▸ List.mem_cons_self _ _)
        · rcases ih h with h' | h'
          · exact Or.inl h'
          · exact Or.inr (List.mem_cons_of_mem _ h')

/-- Membership after a `Nat`-keyed dict assignment. -/
theorem mem_nlistSet {α : Type} (l : List (Nat × α)) (k : Nat) (v : α)
    (p : Nat × α) (hp : p ∈ nlistSet l k v) : p = (k, v) ∨ p ∈ l := by
  induction l with
  | nil => simpa [nlistSet] using hp
  | cons q rest ih =>
      simp only [nlistSet] at hp
      split at hp
      · rcases List.mem_cons.mp hp with h | h
        · exact Or.inl h
        · exact Or.inr (List.mem_cons_of_mem _ h)
      · rcases List.mem_cons.mp hp with h | h
        · exact Or.inr (h ▸ List.mem_cons_self _ _)
        · rcases ih h with h' | h'
          · exact Or.inl h'
          · exact Or.inr (List.mem_cons_of_mem _ h')

/-- Generic fold invariant: a predicate preserved by every step along a
list is preserved by the fold. -/
theorem foldl_inv {β γ : Type} (l : List β) (f : γ → β → γ) (P : γ → Prop)
    (hstep : ∀ acc b, b ∈ l → P acc → P (f acc b)) :
    ∀ acc, P acc → P (l.foldl f acc) := by
  induction l with
  | nil => intro acc h; exact h
  | cons b bs ih =>
      intro acc h
      exact ih (fun acc' b' hb' h' =>
          hstep acc' b' (List.mem_cons_of_mem _ hb') h') _
        (hstep acc b (List.mem_cons_self _ _) h)

/-- `start_quest` leaves the affinity map unchanged. -/
theorem start_quest_affinity (q : String) (gs : GameState) :
    ((StateManager.start_quest q gs).2).affinity = gs.affinity := by
  unfold StateManager.start_quest
  split
  · rfl
  · split <;> rfl

/-- `complete_quest` leaves the affinity map unchanged. -/
theorem complete_quest_affinity (q : String) (gs : GameState) :
    ((StateManager.complete_quest q gs).2).affinity = gs.affinity := by
  unfold StateManager.complete_quest
  split <;> rfl

/-- `fail_quest` leaves the affinity map unchanged. -/
theorem fail_quest_affinity (q : String) (gs : GameState) :
    ((StateManager.fail_quest q gs).2).affinity = gs.affinity := by
  unfold StateManager.fail_quest
  split <;> rfl

/-- `change_affinity` (with its default clamping) preserves the affinity
bounds. -/
theorem change_affinity_inRange (c : String) (d : Int) (gs : GameState)
    (h : affinityInRange gs) :
    affinityInRange (StateManager.change_affinity c d gs) := by
  intro p hp
  simp only [StateManager.change_affinity, if_pos] at hp
  rcases mem_alistSet _ _ _ _ hp with rfl | hmem
  · exact ⟨le_max_left _ _, max_le (by norm_num) (min_le_left _ _)⟩
  · exact h p hmem

/-- Every quest action preserves the affinity bounds. -/
theorem execute_inRange (a : QuestAction) (gs : GameState)
    (h : affinityInRange gs) :
    affinityInRange ((ActionExecutor.execute a gs).2) := by
  unfold ActionExecutor.execute
  cases a.action <;> dsimp only
  case setFlag => exact h
  case addFlag => split <;> exact h
  case changeAffinity =>
      split
      · exact h
      · split
        · exact change_affinity_inRange _ _ _ h
        · exact h
  case setLocation =>
      split
      · split <;> exact h
      · exact h
  case setOutfit =>
      split
      · split <;> exact h
      · exact h
  case setEmotionalState => split <;> exact h
  case startQuest =>
      split
      · split
        · exact h
        · intro p hp
          rw [show ((true, (StateManager.start_quest _ gs).2) :
              Bool × GameState).2.affinity = gs.affinity from
            start_quest_affinity _ gs] at hp
          exact h p hp
      · exact h
  case completeQuest =>
      split
      · split
        · exact h
        · intro p hp
          rw [show ((true, (StateManager.complete_quest _ gs).2) :
              Bool × GameState).2.affinity = gs.affinity from
            complete_quest_affinity _ gs] at hp
          exact h p hp
      · exact h
  case failQuest =>
      split
      · split
        · exact h
        · intro p hp
          rw [show ((true, (StateManager.fail_quest _ gs).2) :
              Bool × GameState).2.affinity = gs.affinity from
            fail_quest_affinity _ gs] at hp
          exact h p hp
      · exact h

/-- `set_flag` leaves the affinity map unchanged. -/
theorem set_flag_affinity (k : String) (v : PyVal) (gs : GameState) :
    (StateManager.set_flag k v gs).affinity = gs.affinity := rfl

/-- `set_location` leaves the affinity map unchanged. -/
theorem set_location_affinity (l : String) (gs : GameState) :
    (StateManager.set_location l gs).affinity = gs.affinity := rfl

/-- `set_time` leaves the affinity map unchanged. -/
theorem set_time_affinity (t : String) (gs : GameState) :
    (StateManager.set_time t gs).affinity = gs.affinity := rfl

/-- `set_outfit_style` leaves the affinity map unchanged. -/
theorem set_outfit_style_affinity (o : String) (gs : GameState) :
    (StateManager.set_outfit_style o gs).affinity = gs.affinity := rfl

/-- `update_npc_emotion` leaves the affinity map unchanged. -/
theorem update_npc_emotion_affinity (n e : String) (gs : GameState) :
    (StateManager.update_npc_emotion n e gs).affinity = gs.affinity := rfl

/-- `_apply_outfit_update` leaves the affinity map unchanged. -/
theorem apply_outfit_update_affinity (u : OutfitUpdate) (gs : GameState) :
    (GameEngine.apply_outfit_update u gs).affinity = gs.affinity := by
  unfold GameEngine.apply_outfit_update
  split
  · split <;> rfl
  · rfl

/-- Folding flag writes leaves the affinity map unchanged. -/
theorem setflags_fold_affinity (l : List (String × PyVal)) (gs : GameState) :
    (l.foldl (fun g p => StateManager.set_flag p.1 p.2 g) gs).affinity =
      gs.affinity := by
  induction l generalizing gs with
  | nil => rfl
  | cons p rest ih => simpa using ih (StateManager.set_flag p.1 p.2 gs)

/-- Affinity bounds transfer along an equality of affinity maps. -/
theorem inRange_of_affinity_eq {g g' : GameState}
    (he : g'.affinity = g.affinity) (h : affinityInRange g) :
    affinityInRange g' := by
  intro p hp
  exact h p (he ▸ hp)

/-- Folding clamped affinity changes preserves the bounds. -/
theorem change_fold_inRange (l : List (String × Int)) (gs : GameState)
    (h : affinityInRange gs) :
    affinityInRange
      (l.foldl (fun g p => StateManager.change_affinity p.1 p.2 g) gs) := by
  induction l generalizing gs with
  | nil => exact h
  | cons p rest ih =>
      exact ih _ (change_affinity_inRange _ _ _ h)

/-- `_apply_updates` only touches the affinity map through its clamped
affinity fold. -/
theorem apply_updates_affinity (v : GameEngine.ValidatedUpdates)
    (gs : GameState) :
    (GameEngine.apply_updates v gs).affinity =
      (v.affinity_change.foldl
        (fun g p => StateManager.change_affinity p.1 p.2 g) gs).affinity := by
  unfold GameEngine.apply_updates
  cases v.current_outfit <;> cases v.outfit_update <;> cases v.location <;>
    cases v.time_of_day <;> cases v.npc_emotion <;>
    simp [set_flag_affinity, set_location_affinity, set_time_affinity,
      set_outfit_style_affinity, update_npc_emotion_affinity,
      apply_outfit_update_affinity, setflags_fold_affinity]

/-- `_apply_updates` preserves the affinity bounds. -/
theorem apply_updates_inRange (v : GameEngine.ValidatedUpdates)
    (gs : GameState) (h : affinityInRange gs) :
    affinityInRange (GameEngine.apply_updates v gs) :=
  inRange_of_affinity_eq (apply_updates_affinity v gs)
    (change_fold_inRange _ _ h)

/-- Best-effort action batches preserve the affinity bounds. -/
theorem execActions_inRange (actions : List QuestAction) (gs : GameState)
    (h : affinityInRange gs) :
    affinityInRange ((execActions actions gs).2) := by
  unfold execActions
  suffices key : ∀ (acc : List QuestAction × GameState),
      affinityInRange acc.2 →
      affinityInRange ((actions.foldl
        (fun acc a =>
          let r := ActionExecutor.execute a acc.2
          (if r.1 then acc.1 ++ [a] else acc.1, r.2)) acc).2) by
    exact key ([], gs) h
  induction actions with
  | nil => intro acc hacc; exact hacc
  | cons a rest ih =>
      intro acc hacc
      exact ih _ (execute_inRange a acc.2 hacc)

/-- Beat consequences preserve the affinity bounds. -/
theorem apply_consequences_inRange (clauses : List BeatConsequence)
    (gs : GameState) (h : affinityInRange gs) :
    affinityInRange (StoryDirector.apply_consequences clauses gs) := by
  unfold StoryDirector.apply_consequences
  induction clauses generalizing gs with
  | nil => exact h
  | cons clause rest ih =>
      apply ih
      cases clause with
      | affinityChange ch amount =>
          dsimp only
          split
          · intro p hp
            rcases mem_alistSet _ _ _ _ hp with rfl | hmem
            · exact ⟨le_max_left _ _, max_le (by norm_num) (min_le_left _ _)⟩
            · exact h p hmem
          · exact h
      | flagSet name value => exact h

/-- The exit-condition loop computes `List.findIdx?` (with the running
start index). -/
theorem firstSatisfiedAux_eq_findIdx (ctx : ConditionContext)
    (conds : List QuestCondition) (i : Nat) :
    QuestEngine.firstSatisfiedAux ctx i conds =
      conds.findIdx? (fun c => ConditionEvaluator.evaluate c ctx) i := by
  induction conds generalizing i with
  | nil => rfl
  | cons c cs ih =>
      by_cases h : ConditionEvaluator.evaluate c ctx
      · simp [QuestEngine.firstSatisfiedAux, h, List.findIdx?]
      · simp [QuestEngine.firstSatisfiedAux, h, List.findIdx?, ih (i + 1)]

/-- The fold of `get_active_instruction`'s sorted-head computation
returns the first element of minimal priority: the list decomposes
around the result, everything before it has strictly greater priority,
and nothing has smaller priority. -/
theorem minFold_spec (bs : List StoryBeat) (b : StoryBeat) :
    ∃ l1 l2,
      b :: bs = l1 ++
        (bs.foldl (fun best c =>
          if c.priority < best.priority then c else best) b) :: l2 ∧
      (∀ c ∈ l1,
        (bs.foldl (fun best c =>
          if c.priority < best.priority then c else best) b).priority <
          c.priority) ∧
      (∀ c ∈ b :: bs,
        (bs.foldl (fun best c =>
          if c.priority < best.priority then c else best) b).priority ≤
          c.priority) := by
  induction bs generalizing b with
  | nil =>
      exact ⟨[], [], rfl, by simp, by simp⟩
  | cons c cs ih =>
      by_cases h : c.priority < b.priority
      · obtain ⟨l1, l2, hdec, hstrict, hle⟩ := ih c
        refine ⟨b :: l1, l2, ?_, ?_, ?_⟩
        · simp only [List.foldl_cons, if_pos h]
          rw [List.cons_append]
          exact congrArg _ hdec
        · intro x hx
          simp only [List.foldl_cons, if_pos h]
          rcases List.mem_cons.mp hx with rfl | hx
          · calc (cs.foldl _ c).priority ≤ c.priority := hle c (by simp)
              _ < x.priority := h
          · exact hstrict x hx
        · intro x hx
          simp only [List.foldl_cons, if_pos h]
          rcases List.mem_cons.mp hx with rfl | hx
          · calc (cs.foldl _ c).priority ≤ c.priority := hle c (by simp)
              _ ≤ x.priority := le_of_lt h
          · exact hle x hx
      · obtain ⟨l1, l2, hdec, hstrict, hle⟩ := ih b
        have hres : ((c :: cs).foldl (fun best x =>
            if x.priority < best.priority then x else best) b) =
            (cs.foldl (fun best x =>
              if x.priority < best.priority then x else best) b) := by
          simp only [List.foldl_cons, if_neg h]
        rcases l1 with _ | ⟨hd, t⟩
        · obtain ⟨hb, hl2⟩ : b = _ ∧ cs = l2 := by
            simpa using hdec
          refine ⟨[], c :: cs, ?_, by simp, ?_⟩
          · rw [hres, List.nil_append, ← hb]
          · intro x hx
            rw [hres, ← hb]
            rcases List.mem_cons.mp hx with rfl | hx
            · exact le_refl _
            · rcases List.mem_cons.mp hx with rfl | hx
              · exact le_of_not_lt h
              · have hx' := hle x (List.mem_cons_of_mem _ hx)
                rw [← hb] at hx'
                exact hx'
        · obtain ⟨hb, hcs⟩ : b = hd ∧ cs = t ++ _ :: l2 := by
            simpa using hdec
          cases hb
          have hrb : (cs.foldl (fun best x =>
              if x.priority < best.priority then x else best) b).priority <
              b.priority := hstrict b (by simp)
          refine ⟨b :: c :: t, l2, ?_, ?_, ?_⟩
          · rw [hres]
            simp only [List.cons_append]
            rw [← hcs]
          · intro x hx
            rw [hres]
            rcases List.mem_cons.mp hx with rfl | hx
            · exact hrb
            · rcases List.mem_cons.mp hx with rfl | hx
              · exact lt_of_lt_of_le hrb (le_of_not_lt h)
              · exact hstrict x (by simp [hx])
          · intro x hx
            rw [hres]
            rcases List.mem_cons.mp hx with rfl | hx
            · exact le_of_lt hrb
            · rcases List.mem_cons.mp hx with rfl | hx
              · exact le_of_lt (lt_of_lt_of_le hrb (le_of_not_lt h))
              · exact hle x (List.mem_cons_of_mem _ hx)

/-- Elements of a descending insertion come from the inserted element or
the old list. -/
theorem mem_of_mem_insertDescBy {α : Type} (key : α → ℚ) (x : α)
    (l : List α) (a : α) (ha : a ∈ insertDescBy key x l) :
    a = x ∨ a ∈ l := by
  induction l with
  | nil => simpa [insertDescBy] using ha
  | cons y ys ih =>
      simp only [insertDescBy] at ha
      split at ha
      · rcases List.mem_cons.mp ha with rfl | ha
        · exact Or.inr (List.mem_cons_self _ _)
        · rcases ih ha with h | h
          · exact Or.inl h
          · exact Or.inr (List.mem_cons_of_mem _ h)
      · rcases List.mem_cons.mp ha with rfl | ha
        · exact Or.inl rfl
        · exact Or.inr ha

/-- The stable descending sort permutes membership. -/
theorem mem_of_mem_sortDescBy {α : Type} (key : α → ℚ) (l : List α)
    (a : α) (ha : a ∈ sortDescBy key l) : a ∈ l := by
  have key' : ∀ (l' : List α) (acc : List α),
      a ∈ l'.foldl (fun acc x => insertDescBy key x acc) acc →
      a ∈ l' ∨ a ∈ acc := by
    intro l'
    induction l' with
    | nil => intro acc h; exact Or.inr h
    | cons x xs ih =>
        intro acc h
        rcases ih (insertDescBy key x acc) h with h | h
        · exact Or.inl (List.mem_cons_of_mem _ h)
        · rcases mem_of_mem_insertDescBy _ _ _ _ h with rfl | h
          · exact Or.inl (List.mem_cons_self _ _)
          · exact Or.inr h
  rcases key' l [] (by simpa [sortDescBy] using ha) with h | h
  · exact h
  · simp at h

/-- Every fact scored by the keyword pass comes from the fact cache. -/
theorem keywordScores_inv (query : String) (mi : Int)
    (facts : List MemoryEntry) :
    ∀ e ∈ MemoryManager.keywordScores query mi facts, e.2.1 ∈ facts := by
  unfold MemoryManager.keywordScores
  refine foldl_inv facts _
    (fun scores : List (Nat × (MemoryEntry × ℚ × String)) =>
      ∀ e ∈ scores, e.2.1 ∈ facts)
    ?_ [] (by simp)
  intro acc fact hfact hacc e he
  dsimp only at he
  split at he
  · exact hacc e he
  · split at he <;> split at he
    · rcases mem_nlistSet _ _ _ _ he with rfl | h
      · exact hfact
      · exact hacc e h
    · exact hacc e he
    · rcases mem_nlistSet _ _ _ _ he with rfl | h
      · exact hfact
      · exact hacc e h
    · exact hacc e he

/-- Every fact scored by the semantic merge comes from the fact cache. -/
theorem semanticMerge_inv (mi : Int) (sem : List (Nat × ℚ))
    (facts : List MemoryEntry)
    (scores0 : List (Nat × (MemoryEntry × ℚ × String)))
    (h0 : ∀ e ∈ scores0, e.2.1 ∈ facts) :
    ∀ e ∈ MemoryManager.semanticMerge mi sem facts scores0,
      e.2.1 ∈ facts := by
  unfold MemoryManager.semanticMerge
  refine foldl_inv sem _
    (fun scores : List (Nat × (MemoryEntry × ℚ × String)) =>
      ∀ e ∈ scores, e.2.1 ∈ facts)
    ?_ scores0 h0
  intro acc p hp hacc e he
  dsimp only at he
  rcases hfind : facts.find? (fun f =>
      f.id == some p.1 && f.importance ≥ mi) with _ | fact
  · rw [hfind] at he
    exact hacc e he
  · rw [hfind] at he
    have hfact := List.mem_of_find?_eq_some hfind
    rcases hget : nlistGet acc p.1 with _ | v
    · rw [hget] at he
      rcases mem_nlistSet _ _ _ _ he with rfl | h
      · exact hfact
      · exact hacc e h
    · rw [hget] at he
      obtain ⟨f0, q0, t0⟩ := v
      rcases mem_nlistSet _ _ _ _ he with rfl | h
      · exact hfact
      · exact hacc e h

/-- Every fact added by the importance backfill comes from the fact
cache. -/
theorem importanceBackfill_inv (mi : Int) (facts : List MemoryEntry)
    (scores0 : List (Nat × (MemoryEntry × ℚ × String)))
    (h0 : ∀ e ∈ scores0, e.2.1 ∈ facts) :
    ∀ e ∈ MemoryManager.importanceBackfill mi facts scores0,
      e.2.1 ∈ facts := by
  unfold MemoryManager.importanceBackfill
  refine foldl_inv facts _
    (fun scores : List (Nat × (MemoryEntry × ℚ × String)) =>
      ∀ e ∈ scores, e.2.1 ∈ facts)
    ?_ scores0 h0
  intro acc fact hfact hacc e he
  dsimp only at he
  split at he
  · rcases mem_nlistSet _ _ _ _ he with rfl | h
    · exact hfact
    · exact hacc e h
  · exact hacc e he

/-- Every search hit's memory is a cached fact. -/
theorem search_memories_mem_facts (query : String) (k : Nat) (mi : Int)
    (sem : List (Nat × ℚ)) (s : MemoryManager.MemoryState) :
    ((MemoryManager.search_memories query k mi sem s).map
      MemorySearchResult.memory) ⊆ s.facts := by
  intro a ha
  unfold MemoryManager.search_memories at ha
  split at ha
  · simp at ha
  · obtain ⟨r, hr, hra⟩ := List.mem_map.mp ha
    obtain ⟨v, hv, hvr⟩ := List.mem_map.mp hr
    subst hvr
    subst hra
    have hv' := List.mem_of_mem_take hv
    have hv'' := mem_of_mem_sortDescBy _ _ _ hv'
    obtain ⟨e, he, rfl⟩ := List.mem_map.mp hv''
    show e.2.1 ∈ s.facts
    revert he
    split
    · split
      · exact fun he => (importanceBackfill_inv _ _ _
          (semanticMerge_inv _ _ _ _ (keywordScores_inv _ _ _))) e he
      · exact fun he => (semanticMerge_inv _ _ _ _
          (keywordScores_inv _ _ _)) e he
    · split
      · exact fun he => (importanceBackfill_inv _ _ _
          (keywordScores_inv _ _ _)) e he
      · exact fun he => (keywordScores_inv _ _ _) e he

/-- The importance-ranked selection draws from the fact cache. -/
theorem get_important_facts_subset (mi : Int) (lim : Nat)
    (s : MemoryManager.MemoryState) :
    MemoryManager.get_important_facts mi lim s ⊆ s.facts := by
  intro a ha
  unfold MemoryManager.get_important_facts at ha
  have h1 := List.mem_of_mem_take ha
  have h2 := mem_of_mem_sortDescBy _ _ _ h1
  exact (List.mem_filter.mp h2).1

/-- History compression never touches the cached fact list. -/
theorem compress_history_facts (s : MemoryManager.MemoryState) :
    (MemoryManager.compress_history s).facts = s.facts := by
  unfold MemoryManager.compress_history
  split
  · rfl
  · split <;> rfl

/-- `start_quest` preserves the turn counter. -/
theorem start_quest_turn_count (q : String) (gs : GameState) :
    ((StateManager.start_quest q gs).2).turn_count = gs.turn_count := by
  unfold StateManager.start_quest
  split
  · rfl
  · split <;> rfl

/-- `complete_quest` preserves the turn counter. -/
theorem complete_quest_turn_count (q : String) (gs : GameState) :
    ((StateManager.complete_quest q gs).2).turn_count = gs.turn_count := by
  unfold StateManager.complete_quest
  split <;> rfl

/-- `fail_quest` preserves the turn counter. -/
theorem fail_quest_turn_count (q : String) (gs : GameState) :
    ((StateManager.fail_quest q gs).2).turn_count = gs.turn_count := by
  unfold StateManager.fail_quest
  split <;> rfl

/-- No quest action touches the turn counter. -/
theorem execute_turn_count (a : QuestAction) (gs : GameState) :
    ((ActionExecutor.execute a gs).2).turn_count = gs.turn_count := by
  unfold ActionExecutor.execute
  cases a.action <;> dsimp only <;> (repeat' split) <;>
    first
      | rfl
      | exact start_quest_turn_count _ _
      | exact complete_quest_turn_count _ _
      | exact fail_quest_turn_count _ _

/-- Action batches preserve the turn counter. -/
theorem execActions_turn_count (actions : List QuestAction) (gs : GameState) :
    ((execActions actions gs).2).turn_count = gs.turn_count := by
  unfold execActions
  suffices key : ∀ (acc : List QuestAction × GameState),
      ((actions.foldl
        (fun acc a =>
          let r := ActionExecutor.execute a acc.2
          (if r.1 then acc.1 ++ [a] else acc.1, r.2)) acc).2).turn_count =
      acc.2.turn_count from key ([], gs)
  induction actions with
  | nil => intro acc; rfl
  | cons a rest ih =>
      intro acc
      rw [List.foldl_cons, ih]
      exact execute_turn_count a acc.2

/-- Quest activation preserves the turn counter. -/
theorem activate_quest_turn_count (defs : List (String × QuestDefinition))
    (quest_id : String) (states : QuestEngine.States) (gs : GameState) :
    ((QuestEngine.activate_quest defs quest_id states gs).2.2).turn_count =
      gs.turn_count := by
  unfold QuestEngine.activate_quest
  dsimp only
  (repeat' (first | split | dsimp only)) <;>
    first | rfl | exact execActions_turn_count _ _

/-- Stage transitions preserve the turn counter. -/
theorem transition_stage_turn_count (quest : QuestDefinition)
    (quest_id : String) (inst : QuestInstance) (to_stage_id : String)
    (states : QuestEngine.States) (gs : GameState) (director_set : Bool) :
    ((QuestEngine.transition_stage quest quest_id inst to_stage_id states gs
      director_set).2.2).turn_count = gs.turn_count := by
  unfold QuestEngine.transition_stage
  dsimp only
  (repeat' (first | split | dsimp only)) <;>
    first
      | rfl
      | exact execActions_turn_count _ _

/-- Quest turn processing preserves the turn counter. -/
theorem quest_process_turn_count (defs : List (String × QuestDefinition))
    (quest_id : String) (states : QuestEngine.States) (gs : GameState)
    (input : String) (ds : Bool) :
    ((QuestEngine.process_turn defs quest_id states gs input ds).2.2).turn_count =
      gs.turn_count := by
  unfold QuestEngine.process_turn
  dsimp only
  (repeat' (first | split | dsimp only))
  all_goals first
    | rfl
    | exact transition_stage_turn_count _ _ _ _ _ _ _

/-- The whole pre-generation phase (personality analysis, beat
selection, quest activation and quest processing) preserves the turn
counter. -/
theorem preGeneration_turn_count (world : WorldDef)
    (fs : GameEngine.FullState) (input : String) :
    ((GameEngine.preGeneration world fs input).1).game.turn_count =
      fs.game.turn_count := by
  unfold GameEngine.preGeneration
  dsimp only
  refine foldl_inv _ _
    (fun acc : List QuestUpdateResult × QuestEngine.States × GameState =>
      acc.2.2.turn_count = fs.game.turn_count) ?_ _ ?_
  · intro acc b _ h
    dsimp only
    split <;> exact (quest_process_turn_count _ _ _ _ _ _).trans h
  · refine foldl_inv _ _
      (fun acc : List String × QuestEngine.States × GameState =>
        acc.2.2.turn_count = fs.game.turn_count) ?_ _ rfl
    intro acc b _ h
    dsimp only
    split <;> exact (activate_quest_turn_count _ _ _ _).trans h

/-! ### Claim theorems -/

/-- C1 (amended).  When the generation call raises, `process_turn`
returns the error result immediately: the returned state is exactly the
state after the pre-generation phase (no LLM update application, no
beat completion or consequences, no memory writes, no deep-personality
pass), and the turn counter is not advanced.  (The original claim — that
the whole `WorldState` equals the state before the turn began — fails:
quest processing and personality analysis run before the generation
call and are not rolled back; see the counterexample.) -/
theorem C1_generation_failure_corrected (world : WorldDef)
    (fs : GameEngine.FullState) (input : String) (e : String)
    (judge : Option JudgeVerdict) (mov : Option GameEngine.MovementOutcome)
    (deep : Option (List (String × Int)))
    (hmove : GameEngine.isMovementIntent input = false) :
    GameEngine.process_turn world fs input
      { llm := .error e, judge := judge, movement := mov,
        deepAnalysis := deep } =
      ({ text := "[Error generating response. Please try again.]",
         error := some e,
         turn_number := (GameEngine.preGeneration world fs input).1.game.turn_count },
       (GameEngine.preGeneration world fs input).1) ∧
    (GameEngine.preGeneration world fs input).1.game.turn_count =
      fs.game.turn_count := by
  constructor
  · unfold GameEngine.process_turn
    rw [hmove]
    rfl
  · exact preGeneration_turn_count world fs input

/-- C1 witness: the amended theorem applied to the concrete fixture. -/
theorem C1_generation_failure_corrected_witness :
    GameEngine.process_turn failWorld failState "x"
      { llm := .error "RuntimeError: No LLM provider available",
        judge := none, movement := none, deepAnalysis := none } =
      ({ text := "[Error generating response. Please try again.]",
         error := some "RuntimeError: No LLM provider available",
         turn_number :=
           (GameEngine.preGeneration failWorld failState "x").1.game.turn_count },
       (GameEngine.preGeneration failWorld failState "x").1) ∧
    (GameEngine.preGeneration failWorld failState "x").1.game.turn_count =
      failState.game.turn_count :=
  C1_generation_failure_corrected failWorld failState "x"
    "RuntimeError: No LLM provider available" none none none (by decide)

/-- C1 counterexample.  With a quest active at a stage whose exit
condition already holds and whose target stage sets a flag on entry, a
failing generation call still returns an error result, yet the flag map
after the turn differs from the flag map before it: the pre-generation
quest mutation is not rolled back, so the `WorldState` does not equal
its value before the turn began. -/
theorem C1_pre_generation_mutation_counterexample :
    (GameEngine.process_turn failWorld failState "x"
      { llm := .error "RuntimeError: No LLM provider available" }).1.error =
      some "RuntimeError: No LLM provider available" ∧
    (GameEngine.process_turn failWorld failState "x"
      { llm := .error "RuntimeError: No LLM provider available" }).2.game.flags =
      [("visited_b", .vBool true)] ∧
    failState.game.flags = [] := by
  refine ⟨by decide, by decide, by decide⟩

/-- C2.  Starting from any state whose affinity values all lie in
`[0, 100]`, any sequence of turn commits — validated-LLM-update
application, quest action execution, quest reward execution, beat
consequence application — keeps every affinity value in `[0, 100]`:
every mutation path clamps into that range. -/
theorem C2_affinity_bounds_invariant (steps : List CommitStep)
    (gs : GameState) (h : affinityInRange gs) :
    affinityInRange (steps.foldl applyCommit gs) := by
  induction steps generalizing gs with
  | nil => exact h
  | cons step rest ih =>
      apply ih
      cases step with
      | llmApply v => exact apply_updates_inRange v gs h
      | questAction a => exact execute_inRange a gs h
      | questReward r => exact execActions_inRange _ gs h
      | beatConsequence c => exact apply_consequences_inRange c gs h

/-- C2 witness: a concrete commit sequence mixing all four mutation
kinds, starting from affinity 98. -/
theorem C2_affinity_bounds_invariant_witness :
    affinityInRange
      (([CommitStep.llmApply { affinity_change := [("Luna", 5)] },
         CommitStep.questAction
           { action := .changeAffinity, character := some "Luna",
             value := .vInt 90 },
         CommitStep.questReward { affinity := [("Luna", -7)] },
         CommitStep.beatConsequence [.affinityChange "Luna" 50]] :
        List CommitStep).foldl applyCommit
        { affinity := [("Luna", 98)], active_companion := "Luna" }) :=
  C2_affinity_bounds_invariant _ _ (by decide)

/-- C3.  Quest stage transition semantics: the exit-condition loop takes
the index of the first satisfied condition (`List.findIdx?`); the
transition loop follows the first transition labeled `condition_{i}`
for that index, with `default` firing only when no condition is
satisfied (`List.find?` over that disjunction); when no transition
matches, `process_turn` returns `none` and mutates neither the quest
instance nor the game state; and on the concrete `turn >= 5` fixture no
transition fires at turn 4 while at turn 5 the instance moves to its
declared target stage `B`. -/
theorem C3_quest_stage_transition_semantics :
    (∀ (ctx : ConditionContext) (conds : List QuestCondition),
      QuestEngine.firstSatisfied ctx conds =
        conds.findIdx? (fun c => ConditionEvaluator.evaluate c ctx)) ∧
    (∀ (idx : Option Nat) (ts : List QuestTransition),
      QuestEngine.findTransition idx ts =
        (ts.find? (fun t =>
          (match idx with
           | some i => t.condition == "condition_" ++ toString i
           | none => false) ||
          (t.condition == "default" && idx.isNone))).map
          QuestTransition.target_stage) ∧
    (∀ (defs : List (String × QuestDefinition)) (quest_id : String)
      (states : QuestEngine.States) (gs : GameState) (input : String)
      (inst : QuestInstance) (quest : QuestDefinition) (stage : QuestStage),
      alistGet states quest_id = some inst →
      inst.status = QuestStatus.active →
      alistGet defs quest_id = some quest →
      alistGet quest.stages inst.current_stage_id = some stage →
      QuestEngine.findTransition
        (QuestEngine.firstSatisfied
          { game_state := gs, user_input := input,
            turn_count := gs.turn_count }
          stage.exit_conditions) stage.transitions = none →
      QuestEngine.process_turn defs quest_id states gs input =
        (none, states, gs)) ∧
    QuestEngine.process_turn turnQuestDefs "q" turnQuestStates
      { turn_count := 4 } "" = (none, turnQuestStates, { turn_count := 4 }) ∧
    (QuestEngine.process_turn turnQuestDefs "q" turnQuestStates
        { turn_count := 5 } "").1 =
      some { quest_id := "q", stage_changed := true, old_stage := some "A",
             new_stage := some "B", narrative_context := "at B" } ∧
    alistGet (QuestEngine.process_turn turnQuestDefs "q" turnQuestStates
        { turn_count := 5 } "").2.1 "q" =
      some { quest_id := "q", status := .active, current_stage_id := "B" } := by
  refine ⟨?_, ?_, ?_, by decide, by decide, by decide⟩
  · intro ctx conds
    exact firstSatisfiedAux_eq_findIdx ctx conds 0
  · intro idx ts
    induction ts with
    | nil => rfl
    | cons t ts ih =>
        rcases idx with _ | i
        · by_cases h : t.condition == "default"
          · simp [QuestEngine.findTransition, h, List.find?]
          · simp [QuestEngine.findTransition, h, List.find?, ih]
        · by_cases h : t.condition == "condition_" ++ toString i
          · simp [QuestEngine.findTransition, h, List.find?]
          · simp [QuestEngine.findTransition, h, List.find?, ih]
  · intro defs quest_id states gs input inst quest stage h1 h2 h3 h4 h5
    unfold QuestEngine.process_turn
    rw [h1]
    simp only [h2, h3, h4, h5]
    simp

/-- C3 witness: the no-transition conjunct applied at the turn-4
fixture, where the `turn >= 5` condition is unsatisfied and no default
transition exists. -/
theorem C3_quest_stage_transition_semantics_witness :
    QuestEngine.process_turn turnQuestDefs "q" turnQuestStates
      { turn_count := 4 } "" = (none, turnQuestStates, { turn_count := 4 }) :=
  C3_quest_stage_transition_semantics.2.2.1 turnQuestDefs "q" turnQuestStates
    { turn_count := 4 } ""
    { quest_id := "q", status := .active, current_stage_id := "A" }
    { title := "Quest", start_stage := "A",
      stages :=
        [("A", { exit_conditions :=
                   [{ ctype := .turnCount, operator := "gte",
                      value := .vInt 5 }],
                 transitions :=
                   [{ condition := "condition_0", target_stage := "B" }] }),
         ("B", { narrative_prompt := "at B" })] }
    { exit_conditions :=
        [{ ctype := .turnCount, operator := "gte", value := .vInt 5 }],
      transitions :=
        [{ condition := "condition_0", target_stage := "B" }] }
    (by decide) (by decide) (by decide) (by decide) (by decide)

/-- C4.  Beat selection returns at most one beat (an `Option`), and a
selected beat is a candidate (its trigger holds, and it is not a
once-beat already recorded completed) of minimal numeric priority, the
first such candidate in declaration order; selection returns `none`
exactly when there is no candidate; and after `mark_beat_completed`
a `once` beat is never selected again.  Selection is a pure function of
the arc, the director state and the game state, so determinism on
identical inputs is inherent to the embedding. -/
theorem C4_beat_selection_lowest_priority :
    (∀ (beats : List StoryBeat) (d : StoryDirector.DirectorState)
      (gs : GameState) (b : StoryBeat),
      StoryDirector.get_active_instruction beats d gs = some b →
      (∃ l1 l2, StoryDirector.candidates beats d gs = l1 ++ b :: l2 ∧
        (∀ c ∈ l1, b.priority < c.priority)) ∧
      (∀ c ∈ StoryDirector.candidates beats d gs, b.priority ≤ c.priority) ∧
      b.trigger gs = true ∧
      ¬(b.once = true ∧ b.id ∈ d.beat_completed)) ∧
    (∀ (beats : List StoryBeat) (d : StoryDirector.DirectorState)
      (gs : GameState),
      StoryDirector.get_active_instruction beats d gs = none ↔
      StoryDirector.candidates beats d gs = []) ∧
    (∀ (beats : List StoryBeat) (d : StoryDirector.DirectorState)
      (gs : GameState) (text : String) (q : ℚ) (b : StoryBeat),
      b.once = true →
      StoryDirector.get_active_instruction beats
        (StoryDirector.mark_beat_completed b text q d) gs ≠ some b) := by
  have main : ∀ (beats : List StoryBeat) (d : StoryDirector.DirectorState)
      (gs : GameState) (b : StoryBeat),
      StoryDirector.get_active_instruction beats d gs = some b →
      (∃ l1 l2, StoryDirector.candidates beats d gs = l1 ++ b :: l2 ∧
        (∀ c ∈ l1, b.priority < c.priority)) ∧
      (∀ c ∈ StoryDirector.candidates beats d gs, b.priority ≤ c.priority) ∧
      b.trigger gs = true ∧
      ¬(b.once = true ∧ b.id ∈ d.beat_completed) := by
    intro beats d gs b hsel
    unfold StoryDirector.get_active_instruction at hsel
    rcases hc : StoryDirector.candidates beats d gs with _ | ⟨c0, cs⟩
    · rw [hc] at hsel
      exact absurd hsel (by simp [StoryDirector.firstMinPriority])
    · rw [hc] at hsel
      simp only [StoryDirector.firstMinPriority, Option.some.injEq] at hsel
      obtain ⟨l1, l2, hdec, hstrict, hle⟩ := minFold_spec cs c0
      rw [hsel] at hdec hstrict hle
      have hmem : b ∈ StoryDirector.candidates beats d gs := by
        rw [hc, hdec]
        exact List.mem_append_right _ (List.mem_cons_self _ _)
      have hpred := List.mem_filter.mp
        (show b ∈ List.filter _ beats from hmem)
      refine ⟨⟨l1, l2, hdec, hstrict⟩, ?_, ?_, ?_⟩
      · intro x hx
        exact hle x hx
      · have h2 := hpred.2
        simp only [Bool.and_eq_true] at h2
        exact h2.2
      · have h2 := hpred.2
        simp only [Bool.and_eq_true, Bool.not_eq_true'] at h2
        intro hcontra
        obtain ⟨honce, hmem'⟩ := hcontra
        have hcontains : d.beat_completed.contains b.id = true :=
          List.elem_eq_true_of_mem hmem'
        rw [honce, hcontains] at h2
        simp at h2
  refine ⟨main, ?_, ?_⟩
  · intro beats d gs
    unfold StoryDirector.get_active_instruction
    rcases hc : StoryDirector.candidates beats d gs with _ | ⟨c0, cs⟩ <;>
      simp [StoryDirector.firstMinPriority]
  · intro beats d gs text q b honce hsel
    apply (main _ _ _ _ hsel).2.2.2
    refine ⟨honce, ?_⟩
    unfold StoryDirector.mark_beat_completed
    dsimp only
    rw [honce, if_pos rfl]
    split
    · next hcon =>
        exact List.mem_of_elem_eq_true
          (show List.elem b.id d.beat_completed = true from hcon)
    · exact List.mem_append_right _ (List.mem_cons_self _ _)

/-- C4 witness: the selection conjunct applied to a one-beat arc whose
trigger always holds. -/
theorem C4_beat_selection_lowest_priority_witness :
    (∃ l1 l2, StoryDirector.candidates [onceBeat] {} {} =
        l1 ++ onceBeat :: l2 ∧
      (∀ c ∈ l1, onceBeat.priority < c.priority)) ∧
    (∀ c ∈ StoryDirector.candidates [onceBeat] {} {},
      onceBeat.priority ≤ c.priority) ∧
    onceBeat.trigger {} = true ∧
    ¬(onceBeat.once = true ∧
      onceBeat.id ∈ ({} : StoryDirector.DirectorState).beat_completed) :=
  C4_beat_selection_lowest_priority.1 [onceBeat] {} {} onceBeat rfl

/-- C5 (amended).  Compression fires when the retained message count
*reaches* `limit + 10` (never strictly above it): appending a message to
a cache holding `limit + 9` messages drops exactly the 10 oldest, keeps
every newer message (in order, followed by the new one), returns the
retained count to `limit`, leaves the cached facts untouched, and writes
to the database exactly one new `summary` memory of importance 3 whose
turn number and content prefix record the compressed range. -/
theorem C5_history_compression_corrected (s : MemoryManager.MemoryState)
    (role content : String) (turn : Int) (m0 : ConversationMessage)
    (ms : List ConversationMessage)
    (hlen : s.recent_messages.length = s.history_limit + 9)
    (hlim : 1 ≤ s.history_limit)
    (htake : s.recent_messages.take 10 = m0 :: ms) :
    (MemoryManager.add_message role content turn s).recent_messages =
      s.recent_messages.drop 10 ++
        [{ role := role, content := content, turn_number := turn }] ∧
    (MemoryManager.add_message role content turn s).recent_messages.length =
      s.history_limit ∧
    (MemoryManager.add_message role content turn s).facts = s.facts ∧
    (∃ topics,
      (MemoryManager.add_message role content turn s).db_memories =
        s.db_memories ++
          [{ memory_type := "summary",
             content :=
               "Summary of turns " ++ toString m0.turn_number ++ "-" ++
                 toString (((m0 :: ms).getLast?.getD m0).turn_number) ++
                 ": " ++ topics,
             turn_number := ((m0 :: ms).getLast?.getD m0).turn_number,
             importance := 3 }]) := by
  have h10 : 10 ≤ s.recent_messages.length := by omega
  have happlen : (s.recent_messages ++
      [({ role := role, content := content, turn_number := turn } :
        ConversationMessage)]).length = s.history_limit + 10 := by
    simp [hlen]
  have htake' : (s.recent_messages ++
      [({ role := role, content := content, turn_number := turn } :
        ConversationMessage)]).take 10 = m0 :: ms := by
    rw [List.take_append_of_le_length h10, htake]
  have hdrop : (s.recent_messages ++
      [({ role := role, content := content, turn_number := turn } :
        ConversationMessage)]).drop 10 =
      s.recent_messages.drop 10 ++
        [{ role := role, content := content, turn_number := turn }] := by
    rw [List.drop_append_of_le_length h10]
  unfold MemoryManager.add_message
  rw [if_pos (by simp [hlen]; omega)]
  unfold MemoryManager.compress_history
  rw [if_neg (by simp [happlen])]
  rw [htake']
  dsimp only
  refine ⟨?_, ?_, rfl, ?_⟩
  · simpa using hdrop
  · simp [hlen]
  · exact ⟨_, rfl⟩

/-- C5 witness: the amended theorem applied to a cache of ten messages
with `history_limit = 1`. -/
theorem C5_history_compression_corrected_witness :
    (MemoryManager.add_message "user" "bye" 10
      { history_limit := 1, recent_messages := tenMessages }).recent_messages =
      tenMessages.drop 10 ++
        [{ role := "user", content := "bye", turn_number := 10 }] ∧
    (MemoryManager.add_message "user" "bye" 10
      { history_limit := 1, recent_messages := tenMessages }).recent_messages.length =
      1 ∧
    (MemoryManager.add_message "user" "bye" 10
      { history_limit := 1, recent_messages := tenMessages }).facts = [] ∧
    (∃ topics,
      (MemoryManager.add_message "user" "bye" 10
        { history_limit := 1, recent_messages := tenMessages }).db_memories =
        [] ++
          [{ memory_type := "summary",
             content :=
               "Summary of turns " ++ toString msgHi.turn_number ++ "-" ++
                 toString (((msgHi :: tenMessages.drop 1).getLast?.getD
                   msgHi).turn_number) ++ ": " ++ topics,
             turn_number :=
               ((msgHi :: tenMessages.drop 1).getLast?.getD msgHi).turn_number,
             importance := 3 }]) :=
  C5_history_compression_corrected
    { history_limit := 1, recent_messages := tenMessages } "user" "bye" 10
    msgHi (tenMessages.drop 1) (by decide) (by decide) (by decide)

/-- C5 counterexample.  With `history_limit = 1` and messages appended
one at a time from an empty cache, compression has already occurred
(a `summary` row exists and the retained count is back to the limit)
although the retained count never exceeded `limit + 10 = 11` at any
point of the trace: the claim's trigger "count exceeds `limit + 10`"
never happens, while the compression it describes does — the actual
threshold is *reaching* `limit + 10`. -/
theorem C5_exceeds_threshold_counterexample :
    ((List.range 11).foldl (fun st i =>
        MemoryManager.add_message "user" "hi" (i : Int) st)
      { history_limit := 1 }).recent_messages.length = 1 ∧
    ((List.range 11).foldl (fun st i =>
        MemoryManager.add_message "user" "hi" (i : Int) st)
      { history_limit := 1 }).db_memories.map (·.memory_type) = ["summary"] ∧
    (∀ k, k ≤ 11 →
      ((List.range k).foldl (fun st i =>
          MemoryManager.add_message "user" "hi" (i : Int) st)
        { history_limit := 1 }).recent_messages.length ≤ 11) := by
  exact ⟨by decide, by decide, by decide⟩

/-- C6.  The generation manager tries providers in the declared order
gemini (primary), moonshot (fallback), mock: a configured primary whose
response is valid is returned with only the primary attempted; an
invalid or failing primary response falls through to the fallback; and
the attempted-provider list is always a prefix-closed subsequence of
the declared priority order. -/
theorem C6_provider_priority_fallback :
    (∀ (s : LLMManager.ProviderSetup) (r : LLMResponse),
      s.primary = some (Except.ok r) → LLMManager.is_valid_response r = true →
      LLMManager.generate s = (Except.ok r, ["gemini"])) ∧
    (∀ (s : LLMManager.ProviderSetup) (r r' : LLMResponse),
      s.primary = some (Except.ok r) → LLMManager.is_valid_response r = false →
      s.fallback = some (Except.ok r') → LLMManager.is_valid_response r' = true →
      LLMManager.generate s = (Except.ok r', ["gemini", "moonshot"])) ∧
    (∀ (s : LLMManager.ProviderSetup) (e : Unit) (r' : LLMResponse),
      s.primary = some (Except.error e) →
      s.fallback = some (Except.ok r') → LLMManager.is_valid_response r' = true →
      LLMManager.generate s = (Except.ok r', ["gemini", "moonshot"])) ∧
    (∀ (s : LLMManager.ProviderSetup) (um : Bool),
      List.Sublist (LLMManager.generate s um).2 ["gemini", "moonshot", "mock"]) := by
  refine ⟨?_, ?_, ?_, ?_⟩
  · intro s r hp hv
    simp [LLMManager.generate, hp, hv]
  · intro s r r' hp hv hf hv'
    simp [LLMManager.generate, hp, hv, hf, hv']
  · intro s e r' hp hf hv'
    simp [LLMManager.generate, hp, hf, hv']
  · intro s um
    obtain ⟨p, f, m⟩ := s
    unfold LLMManager.generate
    rcases p with _ | (e | r) <;> rcases f with _ | (e' | r') <;>
      rcases m with _ | m <;> cases um
    all_goals dsimp only
    all_goals repeat' split
    all_goals simp

/-- C6 witness: a healthy primary short-circuits the chain. -/
theorem C6_provider_priority_fallback_witness :
    LLMManager.generate
      { primary := some (Except.ok { text := "A fine reply." }) } =
      (Except.ok ({ text := "A fine reply." } : LLMResponse), ["gemini"]) :=
  C6_provider_priority_fallback.1
    { primary := some (Except.ok { text := "A fine reply." }) }
    { text := "A fine reply." } rfl (by decide)

/-- C7.  Validation clamps every proposed per-companion affinity delta
into `[-5, 5]` and drops deltas for companions absent from the affinity
map; in particular a proposed `+8` for a companion at affinity 50 is
stored as `+5` and commits to 55. -/
theorem C7_affinity_delta_clamp :
    (∀ (updates : StateUpdate) (world : WorldDef) (gs : GameState)
      (c : String) (d : Int),
      (c, d) ∈ (GameEngine.validate_updates updates world gs).affinity_change →
      -5 ≤ d ∧ d ≤ 5 ∧ alistMem gs.affinity c = true ∧
      ∃ d0, (c, d0) ∈ updates.affinity_change ∧ d = max (-5) (min 5 d0)) ∧
    (∀ world : WorldDef,
      (GameEngine.validate_updates { affinity_change := [("Luna", 8)] } world
        { affinity := [("Luna", 50)] }).affinity_change = [("Luna", 5)]) ∧
    alistGet ((GameEngine.apply_updates { affinity_change := [("Luna", 5)] }
      { affinity := [("Luna", 50)] }).affinity) "Luna" = some 55 := by
  refine ⟨?_, fun world => rfl, by decide⟩
  intro updates world gs c d hmem
  unfold GameEngine.validate_updates at hmem
  dsimp only at hmem
  obtain ⟨p, hp, heq⟩ := List.mem_map.mp hmem
  obtain ⟨hpm, hfil⟩ := List.mem_filter.mp hp
  obtain ⟨pc, pd⟩ := p
  simp only [Prod.mk.injEq] at heq
  obtain ⟨rfl, rfl⟩ := heq
  refine ⟨?_, ?_, ?_, pd, hpm, rfl⟩
  · omega
  · omega
  · simpa using hfil

/-- C7 witness: the clamp conjunct at a concrete proposed delta. -/
theorem C7_affinity_delta_clamp_witness :
    -5 ≤ (5 : Int) ∧ (5 : Int) ≤ 5 ∧
    alistMem ({ affinity := [("Luna", 50)] } : GameState).affinity "Luna" =
      true ∧
    ∃ d0,
      ("Luna", d0) ∈
        ({ affinity_change := [("Luna", 8)] } : StateUpdate).affinity_change ∧
      (5 : Int) = max (-5) (min 5 d0) :=
  C7_affinity_delta_clamp.1 { affinity_change := [("Luna", 8)] } {}
    { affinity := [("Luna", 50)] } "Luna" 5 (by decide)

/-- C8 (amended).  Under any sequence of `start_quest`, `complete_quest`
and `fail_quest` operations from a state with duplicate-free active
quests disjoint from the completed list: the active list stays
duplicate-free and disjoint from the completed list, and a completed
quest stays completed and never returns to the active list.  The
claim's further assertion — that a *failed* quest also never returns to
active — does not hold: failure leaves no record on the state, so the
failed id can be started or auto-activated again (see the
counterexample). -/
theorem C8_quest_status_corrected (ops : List QuestOp) (gs : GameState)
    (hnd : gs.active_quests.Nodup)
    (hdis : ∀ q ∈ gs.active_quests, q ∉ gs.completed_quests) :
    (ops.foldl applyQuestOp gs).active_quests.Nodup ∧
    (∀ q ∈ (ops.foldl applyQuestOp gs).active_quests,
      q ∉ (ops.foldl applyQuestOp gs).completed_quests) ∧
    (∀ q ∈ gs.completed_quests,
      q ∈ (ops.foldl applyQuestOp gs).completed_quests) ∧
    (∀ q ∈ gs.completed_quests,
      q ∉ (ops.foldl applyQuestOp gs).active_quests) := by
  induction ops generalizing gs with
  | nil => exact ⟨hnd, hdis, fun q hq => hq, fun q hq => fun hmem => hdis q hmem hq⟩
  | cons op rest ih =>
      have step : (applyQuestOp gs op).active_quests.Nodup ∧
          (∀ q ∈ (applyQuestOp gs op).active_quests,
            q ∉ (applyQuestOp gs op).completed_quests) ∧
          (∀ q ∈ gs.completed_quests,
            q ∈ (applyQuestOp gs op).completed_quests) := by
        cases op with
        | start q =>
            dsimp only [applyQuestOp]
            unfold StateManager.start_quest
            split
            · exact ⟨hnd, hdis, fun q hq => hq⟩
            · split
              · exact ⟨hnd, hdis, fun q hq => hq⟩
              · next hact hcomp =>
                refine ⟨?_, ?_, fun q hq => hq⟩
                · simp [List.nodup_append, hnd, hact]
                · intro x hx
                  dsimp only at hx ⊢
                  rcases List.mem_append.mp hx with hx | hx
                  · exact hdis x hx
                  · rcases List.mem_singleton.mp hx with rfl
                    exact hcomp
        | complete q =>
            dsimp only [applyQuestOp]
            unfold StateManager.complete_quest
            split
            · exact ⟨hnd, hdis, fun q hq => hq⟩
            · next hact =>
              rw [not_not] at hact
              refine ⟨hnd.erase q, ?_, ?_⟩
              · intro x hx
                dsimp only at hx ⊢
                have hx' := (List.Nodup.mem_erase_iff hnd).mp hx
                intro hmem
                rcases List.mem_append.mp hmem with hmem | hmem
                · exact hdis x hx'.2 hmem
                · exact hx'.1 (List.mem_singleton.mp hmem)
              · intro x hx
                exact List.mem_append_left _ hx
        | fail q =>
            dsimp only [applyQuestOp]
            unfold StateManager.fail_quest
            split
            · exact ⟨hnd, hdis, fun q hq => hq⟩
            · refine ⟨hnd.erase q, ?_, fun q hq => hq⟩
              intro x hx
              dsimp only at hx ⊢
              exact hdis x (List.mem_of_mem_erase hx)
      obtain ⟨h1, h2, h3⟩ := step
      obtain ⟨g1, g2, g3, g4⟩ := ih (applyQuestOp gs op) h1 h2
      refine ⟨g1, g2, ?_, ?_⟩
      · intro q hq
        exact g3 q (h3 q hq)
      · intro q hq
        exact g4 q (h3 q hq)

/-- C8 witness: the amended invariant over a start/complete/start/fail
trace from the empty state. -/
theorem C8_quest_status_corrected_witness :
    (([QuestOp.start "a", QuestOp.complete "a", QuestOp.start "b",
        QuestOp.fail "b"]).foldl applyQuestOp {}).active_quests.Nodup ∧
    (∀ q ∈ (([QuestOp.start "a", QuestOp.complete "a", QuestOp.start "b",
        QuestOp.fail "b"]).foldl applyQuestOp {}).active_quests,
      q ∉ (([QuestOp.start "a", QuestOp.complete "a", QuestOp.start "b",
        QuestOp.fail "b"]).foldl applyQuestOp {}).completed_quests) ∧
    (∀ q ∈ ({} : GameState).completed_quests,
      q ∈ (([QuestOp.start "a", QuestOp.complete "a", QuestOp.start "b",
        QuestOp.fail "b"]).foldl applyQuestOp {}).completed_quests) ∧
    (∀ q ∈ ({} : GameState).completed_quests,
      q ∉ (([QuestOp.start "a", QuestOp.complete "a", QuestOp.start "b",
        QuestOp.fail "b"]).foldl applyQuestOp {}).active_quests) :=
  C8_quest_status_corrected
    [QuestOp.start "a", QuestOp.complete "a", QuestOp.start "b",
      QuestOp.fail "b"] {} (by decide) (by simp)

/-- C8 counterexample: a failed quest returns to active.  At the
`StateManager` level, starting `q`, failing it, then starting it again
succeeds and puts `q` back in the active list; at the `QuestEngine`
level, `check_activations` offers a quest whose instance status is
`failed` (it skips only active and completed), and `activate_quest`
flips that instance back to `active`. -/
theorem C8_failed_quest_reactivation_counterexample :
    (StateManager.start_quest "q"
      (StateManager.fail_quest "q"
        (StateManager.start_quest "q" {}).2).2).1 = true ∧
    (StateManager.start_quest "q"
      (StateManager.fail_quest "q"
        (StateManager.start_quest "q" {}).2).2).2.active_quests = ["q"] ∧
    QuestEngine.check_activations [("q", { activation_type := "auto" })]
      [("q", { quest_id := "q", status := .failed, current_stage_id := "A" })]
      {} = ["q"] ∧
    (alistGet (QuestEngine.activate_quest
        [("q", { activation_type := "auto" })] "q"
        [("q", { quest_id := "q", status := .failed, current_stage_id := "A" })]
        {}).2.1 "q").map QuestInstance.status = some QuestStatus.active := by
  refine ⟨by decide, by decide, by decide, by decide⟩

/-- C9.  Without a judge verdict, validation returns the baseline:
quality is the fraction of required elements found as lowercased
substrings of the generated text (1 when there are none), success holds
iff no element is missing, and the missing list is exactly the elements
not found; a parsed judge verdict overrides success and quality but the
missing list stays the baseline's; and with required element "kiss"
absent from the text the baseline is `(false, 0, ["kiss"])`. -/
theorem C9_beat_validation_judge_override :
    (∀ (beat : StoryBeat) (text : String),
      (StoryDirector.validate_beat_execution beat text none).2.1 =
        (if beat.required_elements = [] then (1 : ℚ)
         else ((beat.required_elements.countP
             (fun e => substrStr (strLower e) (strLower text)) : ℚ)) /
           (beat.required_elements.length : ℚ)) ∧
      ((StoryDirector.validate_beat_execution beat text none).1 = true ↔
        ∀ e ∈ beat.required_elements,
          substrStr (strLower e) (strLower text) = true) ∧
      (StoryDirector.validate_beat_execution beat text none).2.2 =
        beat.required_elements.filter
          (fun e => !substrStr (strLower e) (strLower text))) ∧
    (∀ (beat : StoryBeat) (text : String) (v : JudgeVerdict),
      StoryDirector.validate_beat_execution beat text (some v) =
        (v.success.getD false,
         v.quality.getD
           ((StoryDirector.validate_beat_execution beat text none).2.1),
         (StoryDirector.validate_beat_execution beat text none).2.2)) ∧
    (StoryDirector.validate_beat_execution
        { id := "b", trigger := fun _ => true, required_elements := ["kiss"] }
        "They waved goodbye." none) =
      (false, 0, ["kiss"]) := by
  refine ⟨?_, ?_, ?_⟩
  · intro beat text
    refine ⟨?_, ?_, rfl⟩
    case' refine_2 =>
      show ((beat.required_elements.filter
          (fun e => !substrStr (strLower e) (strLower text))).length == 0)
          = true ↔ _
      simp [List.length_eq_zero, List.filter_eq_nil_iff]
    · show (if beat.required_elements.isEmpty then (1 : ℚ) else _) = _
      rcases h : beat.required_elements with _ | ⟨e, es⟩
      · simp
      · rw [← h]
        have hne : beat.required_elements ≠ [] := by rw [h]; simp
        rw [if_neg (by simpa using hne), if_neg hne]
        congr 1
        have hlen := List.length_eq_countP_add_countP
          (fun e => substrStr (strLower e) (strLower text))
          (l := beat.required_elements)
        have hfl : (beat.required_elements.filter
            (fun e => !substrStr (strLower e) (strLower text))).length =
            beat.required_elements.countP
              (fun e => !substrStr (strLower e) (strLower text)) :=
          (List.countP_eq_length_filter _ _).symm
        have hfun : (fun a => decide
            ¬(substrStr (strLower a) (strLower text) = true)) =
            (fun e => !substrStr (strLower e) (strLower text)) := by
          funext a
          cases h : substrStr (strLower a) (strLower text) <;> simp [h]
        rw [hfun] at hlen
        have key : (beat.required_elements.length : ℤ) -
            (beat.required_elements.countP
              (fun e => !substrStr (strLower e) (strLower text)) : ℤ) =
            (beat.required_elements.countP
              (fun e => substrStr (strLower e) (strLower text)) : ℤ) := by
          omega
        rw [hfl]
        push_cast
        exact_mod_cast key
  · intro beat text v
    rfl
  · have h : substrStr (strLower "kiss") (strLower "They waved goodbye.") =
        false := by decide
    refine Prod.ext ?_ (Prod.ext ?_ ?_)
    · decide
    · show (StoryDirector.validate_beat_execution _ _ none).2.1 = (0 : ℚ)
      simp [StoryDirector.validate_beat_execution, h]
    · decide

/-- C10.  A compression summary is written only to the database:
`compress_history` leaves the cached facts unchanged and appends at most
one database memory, of type "summary" and importance 3; `add_message`
never changes the cached facts; and `search_memories` and
`get_memory_context_facts` return only members of the cached facts, so
within a session no compression summary can appear among their
results. -/
theorem C10_summary_only_in_database :
    (∀ s : MemoryManager.MemoryState,
      (MemoryManager.compress_history s).facts = s.facts ∧
      ((MemoryManager.compress_history s).db_memories = s.db_memories ∨
        ∃ summary, (MemoryManager.compress_history s).db_memories =
            s.db_memories ++ [summary] ∧
          summary.memory_type = "summary" ∧ summary.importance = 3)) ∧
    (∀ (role content : String) (turn : Int) (s : MemoryManager.MemoryState)
      (v : String) (t : List String),
      (MemoryManager.add_message role content turn s v t).facts = s.facts) ∧
    (∀ (query : String) (k : Nat) (mi : Int) (sem : List (Nat × ℚ))
      (s : MemoryManager.MemoryState),
      ((MemoryManager.search_memories query k mi sem s).map
        MemorySearchResult.memory) ⊆ s.facts) ∧
    (∀ (query : Option String) (mf : Nat) (mi : Int) (sem : List (Nat × ℚ))
      (s : MemoryManager.MemoryState),
      MemoryManager.get_memory_context_facts query mf mi sem s ⊆ s.facts) := by
  refine ⟨?_, ?_, search_memories_mem_facts, ?_⟩
  · intro s
    refine ⟨compress_history_facts s, ?_⟩
    unfold MemoryManager.compress_history
    split
    · exact Or.inl rfl
    · split
      · exact Or.inl rfl
      · exact Or.inr ⟨_, rfl, rfl, rfl⟩
  · intro role content turn s v t
    unfold MemoryManager.add_message
    dsimp only
    split
    · exact compress_history_facts _
    · rfl
  · intro query mf mi sem s
    unfold MemoryManager.get_memory_context_facts
    split
    · intro a ha
      exact search_memories_mem_facts _ _ _ _ _ ha
    · exact get_important_facts_subset _ _ _

end Luna
